import Mathlib

/-!
# QSchematic: `WireNet` (src/qschematic/items/wirenet.cpp)

A shallow embedding of the `WireNet` class: the global-net query `nets()`, highlight
propagation, label placement, naming and label toggling, and loading from a container.

Modelling conventions

* Objects live on heaps addressed by natural numbers: `State.wires` for wire objects
  (`none` is a destroyed object, so a `weak_ptr` to it is expired) and `State.nets` for
  `WireNet` objects.  `this` is the address `self`.
* Coordinates are values of an arbitrary type `R` (the type `qreal`), squared lengths of
  an arbitrary type `D` (the type `float`).  The arithmetic on them (`+` and `-` on points,
  `QVector2D::lengthSquared`, `>` on `float`, `QPointF::isNull`) is a parameter of the
  model: the general theorems use no law of arithmetic and so hold for the rounded
  arithmetic of the program.  The examples are evaluated in `exampleExternals`, which
  rounds every operation to the nearest representable value, ties to even, with 53
  significant bits for `qreal` and 24 for `float`.
* Abnormal termination (null dereference, failed `Q_ASSERT`, `std::bad_optional_access`)
  is the result `none`.
* The mutual recursion `setHighlighted` / `highlight_global_net` carries a fuel counter that
  bounds the call depth.  These two methods have no failing step of their own, so for them
  the result `none` means exactly that the bound was exceeded.
* Signal/slot wiring (`connect`, `disconnect`) is not modelled.
-/

namespace QSchematic

variable {R D : Type}

/-! ## Values -/

/-- A `QString`, as its sequence of characters. -/
abbrev QString := List Char

/-- A `QPointF`: `x` and `y`, of the coordinate type `R`. -/
abbrev QPointF (R : Type) := R × R

/-- A line segment `wire_system::line` with its end points `p1()` and `p2()`. -/
structure line (R : Type) where
  p1 : QPointF R
  p2 : QPointF R

/-- Functions that the class calls and that are defined outside `wirenet.cpp`: the case
folding of Qt used by `Qt::CaseInsensitive`; the arithmetic of `QPointF` (the coordinate
`0`, `isNull()`, `operator+`, `operator-`); `QVector2D(p).lengthSquared()`, a `float`, and
`operator>` on `float`; `Utils::pointOnLineClosestToPoint`; and the centre of
`Label::textRect()` as a function of the label text.  The one law is that the
default-constructed point `QPointF()` is null. -/
structure Externals (R D : Type) where
  foldCase : Char → Char
  zero : R
  isNull : QPointF R → Bool
  add : QPointF R → QPointF R → QPointF R
  sub : QPointF R → QPointF R → QPointF R
  lengthSquared : QPointF R → D
  greater : D → D → Bool
  pointOnLineClosestToPoint : QPointF R → QPointF R → QPointF R → QPointF R
  textRectCenter : QString → QPointF R
  isNull_zero : isNull (zero, zero) = true

/-- The call `QString::compare(a, b, Qt::CaseInsensitive)`: lexicographic comparison of the
case-folded strings; the result is `0` exactly for equal folded strings. -/
def QString.compare (E : Externals R D) : QString → QString → Int
  | [], [] => 0
  | [], _ :: _ => -1
  | _ :: _, [] => 1
  | a :: as, b :: bs =>
    if E.foldCase a = E.foldCase b then QString.compare E as bs
    else ((E.foldCase a).toNat : Int) - ((E.foldCase b).toNat : Int)

/-! ## Objects -/

/-- A wire object.  `isItem` tells whether its dynamic type is `QSchematic::Wire`, that is
whether `std::dynamic_pointer_cast<Wire>` succeeds; `net` is the net that owns the wire. -/
structure Wire (R : Type) where
  isItem : Bool
  pos : QPointF R
  scenePos : QPointF R
  line_segments : List (line R)
  highlighted : Bool
  net : Option Nat

/-- The `Label` of a net.  `parentItem` is the address of the wire that hosts the label. -/
structure Label (R : Type) where
  pos : QPointF R
  parentItem : Option Nat
  visible : Bool
  text : QString
  highlighted : Bool
  connectionPoint : QPointF R

/-- A `WireNet` object: `m_name` and `m_wires` of the base class `wire_system::net`, the
label `_label`, whether `_scene` is set, and the `QObject` signal-blocking flag. -/
structure WireNet (R : Type) where
  m_name : QString
  m_wires : List Nat
  label : Label R
  scene : Bool
  signalsBlocked : Bool

/-- The program state: the two heaps, the list `wire_manager::_nets` (`none` is a null
pointer), the next free wire address, and the items added to the scene. -/
structure State (R : Type) where
  wires : Nat → Option (Wire R)
  nets : Nat → WireNet R
  manager : List (Option Nat)
  nextWire : Nat
  sceneItems : List Nat

/-- Replace the label of the net at `self`. -/
def State.setLabel (st : State R) (self : Nat) (l : Label R) : State R :=
  { st with nets := Function.update st.nets self { st.nets self with label := l } }

/-! ## `WireNet::nets` -/

/-- The body of the loop of `WireNet::nets()`, over the remaining entries of
`m_manager->nets()`, appending to `list`.  The entries are pointers to `WireNet`, so the
cast to `WireNet` in the innermost test always succeeds. -/
def WireNet.netsLoop (E : Externals R D) (st : State R) (self : Nat) :
    List (Option Nat) → List Nat → List Nat
  | [], list => list
  | none :: rest, list => WireNet.netsLoop E st self rest list
  | some net :: rest, list =>
    if (st.nets net).m_name.isEmpty then WireNet.netsLoop E st self rest list
    else if QString.compare E (st.nets net).m_name (st.nets self).m_name = 0 then
      WireNet.netsLoop E st self rest (list ++ [net])
    else WireNet.netsLoop E st self rest list

/-- The method `WireNet::nets()`: all nets of the manager in the same global net. -/
def WireNet.nets (E : Externals R D) (st : State R) (self : Nat) : List Nat :=
  WireNet.netsLoop E st self st.manager []

/-! ## Highlighting -/

/-- Modelled from the spec: `Item::setHighlighted` of a wire item, which is defined outside
`wirenet.cpp`; the spec has `setHighlighted` set the wire "to the highlighted state". -/
def Wire.setHighlighted (w : Wire R) (highlighted : Bool) : Wire R :=
  { w with highlighted := highlighted }

/-- Modelled from the spec: `Item::setHighlighted` of the label, which is defined outside
`wirenet.cpp`; the spec has `setHighlighted` set the label "to the highlighted state". -/
def Label.setHighlighted (l : Label R) (highlighted : Bool) : Label R :=
  { l with highlighted := highlighted }

/-- The first loop of `WireNet::setHighlighted`: expired wires are skipped, wire items are
highlighted. -/
def WireNet.highlightWires (highlighted : Bool) :
    (Nat → Option (Wire R)) → List Nat → (Nat → Option (Wire R))
  | wires, [] => wires
  | wires, wire :: rest =>
    match wires wire with
    | none => WireNet.highlightWires highlighted wires rest
    | some w =>
      if w.isItem then
        WireNet.highlightWires highlighted
          (Function.update wires wire (some (w.setHighlighted highlighted))) rest
      else WireNet.highlightWires highlighted wires rest

/-- The call `net->blockSignals(b)`. -/
def State.blockSignals (st : State R) (net : Nat) (b : Bool) : State R :=
  { st with nets := Function.update st.nets net { st.nets net with signalsBlocked := b } }

/-- The loop of `WireNet::highlight_global_net` over the list returned by `nets()`, with
the call `otherWireNet->setHighlighted(highlighted)` passed as `call`. -/
def WireNet.highlightLoop (call : State R → Nat → Option (State R)) (self : Nat) :
    List Nat → State R → Option (State R)
  | [], st => some st
  | otherWireNet :: rest, st =>
    if otherWireNet = self then WireNet.highlightLoop call self rest st
    else
      match call (st.blockSignals otherWireNet true) otherWireNet with
      | none => none
      | some st1 => WireNet.highlightLoop call self rest (st1.blockSignals otherWireNet false)

/-- The parts "Wires" and "Label" of `WireNet::setHighlighted`: the wires of the net, then
its label. -/
def WireNet.highlightOwn (st : State R) (self : Nat) (highlighted : Bool) : State R :=
  let st1 : State R :=
    { st with wires := WireNet.highlightWires highlighted st.wires (st.nets self).m_wires }
  st1.setLabel self ((st1.nets self).label.setHighlighted highlighted)

/-- The method `WireNet::setHighlighted`, with at most `fuel` nested calls: the wires, the
label, then the body of `highlight_global_net`. -/
def WireNet.setHighlighted (E : Externals R D) :
    Nat → State R → Nat → Bool → Option (State R)
  | 0, _, _, _ => none
  | fuel + 1, st, self, highlighted =>
    let st2 := WireNet.highlightOwn st self highlighted
    WireNet.highlightLoop (fun s other => WireNet.setHighlighted E fuel s other highlighted)
      self (WireNet.nets E st2 self) st2

/-- The method `WireNet::highlight_global_net`, where each nested `setHighlighted` may make
at most `fuel` nested calls. -/
def WireNet.highlight_global_net (E : Externals R D) (fuel : Nat) (st : State R) (self : Nat)
    (highlighted : Bool) : Option (State R) :=
  WireNet.highlightLoop (fun s other => WireNet.setHighlighted E fuel s other highlighted)
    self (WireNet.nets E st self) st

/-! ## Label placement -/

/-- The position `_label->scenePos()`: the label's own position for a label without host,
the host's scene position plus the label's position otherwise (hosts carry no rotation or
scaling).  A host that no longer exists makes the call fail. -/
def State.labelScenePos (E : Externals R D) (st : State R) (l : Label R) :
    Option (QPointF R) :=
  match l.parentItem with
  | none => some l.pos
  | some host =>
    match st.wires host with
    | none => none
    | some w => some (E.add w.scenePos l.pos)

/-- The local variables `closestPoint` and `closestWire` of `WireNet::updateLabelPos`. -/
structure Closest (R : Type) where
  closestPoint : QPointF R
  closestWire : Option Nat

/-- The values of `closestPoint` and `closestWire` before the loops of
`WireNet::updateLabelPos`: the default-constructed point and a null pointer. -/
def Closest.init (E : Externals R D) : Closest R :=
  { closestPoint := (E.zero, E.zero), closestWire := none }

/-- The body of the inner loop of `WireNet::updateLabelPos`, for one segment of `spWire`:
`distance1` and `distance2` are `float` squared lengths of `QVector2D`. -/
def WireNet.scanSegment (E : Externals R D) (labelPos : QPointF R) (spWire : Nat)
    (c : Closest R) (segment : line R) : Closest R :=
  let p := E.pointOnLineClosestToPoint segment.p1 segment.p2 labelPos
  let distance1 := E.lengthSquared (E.sub labelPos c.closestPoint)
  let distance2 := E.lengthSquared (E.sub labelPos p)
  if E.isNull c.closestPoint || E.greater distance1 distance2 then
    { closestPoint := p, closestWire := some spWire }
  else c

/-- The outer loop of `WireNet::updateLabelPos` over `m_wires`; `wire.lock()` of an expired
wire is null and the call `spWire->line_segments()` then fails. -/
def WireNet.findClosest (E : Externals R D) (st : State R) (labelPos : QPointF R) :
    List Nat → Closest R → Option (Closest R)
  | [], c => some c
  | wire :: rest, c =>
    match st.wires wire with
    | none => none
    | some spWire =>
      WireNet.findClosest E st labelPos rest
        (spWire.line_segments.foldl (WireNet.scanSegment E labelPos wire) c)

/-- The step "Update the parent if requested" of `WireNet::updateLabelPos`: `w` is the
object of `closestWire`.  When the cast to `Wire` fails and the label has a host, the call
`closestWireItem->scenePos()` dereferences null. -/
def WireNet.updateLabelParent (E : Externals R D) (updateParent : Bool) (labelPos : QPointF R)
    (closestWire : Nat) (w : Wire R) (label : Label R) : Option (Label R) :=
  let closestWireItem : Option Nat := if w.isItem then some closestWire else none
  if updateParent && decide (label.parentItem ≠ closestWireItem) then
    match closestWireItem with
    | none => none
    | some item =>
      some { label with
        parentItem := some item
        pos := E.sub (E.sub labelPos (E.textRectCenter label.text)) w.scenePos }
  else some label

/-- The step "Update the connection point" of `WireNet::updateLabelPos`. -/
def WireNet.updateLabelConnection (E : Externals R D) (st : State R)
    (closestPoint : QPointF R) (label : Label R) : Option (Label R) :=
  match label.parentItem with
  | some host =>
    match st.wires host with
    | none => none
    | some hw => some { label with connectionPoint := E.sub closestPoint hw.pos }
  | none => some { label with connectionPoint := closestPoint }

/-- The method `WireNet::updateLabelPos(updateParent)`. -/
def WireNet.updateLabelPos (E : Externals R D) (updateParent : Bool) (st : State R)
    (self : Nat) : Option (State R) :=
  let label := (st.nets self).label
  if !label.visible then some st
  else
    match st.labelScenePos E label with
    | none => none
    | some scenePos =>
      let labelPos := E.add (E.textRectCenter label.text) scenePos
      match WireNet.findClosest E st labelPos (st.nets self).m_wires (Closest.init E) with
      | none => none
      | some c =>
        match c.closestWire with
        | none => some st
        | some closestWire =>
          match st.wires closestWire with
          | none => none
          | some w =>
            match WireNet.updateLabelParent E updateParent labelPos closestWire w label with
            | none => none
            | some label1 =>
              match WireNet.updateLabelConnection E st c.closestPoint label1 with
              | none => none
              | some label2 => some (st.setLabel self label2)

/-! ## Wires, name and label visibility -/

/-- Modelled from the spec: `net::addWire` of the base class `wire_system::net`, which is
defined outside `wirenet.cpp`.  The spec: "Returns false if the Wire reference is
already owned by a Net (no-op, signals caller error)"; a null reference is refused too.
An accepted wire joins the wire set of the net and the net becomes its owner. -/
def net.addWire (st : State R) (self : Nat) (wire : Nat) : Bool × State R :=
  match st.wires wire with
  | none => (false, st)
  | some w =>
    if w.net.isSome then (false, st)
    else
      (true,
        { st with
          wires := Function.update st.wires wire (some { w with net := some self })
          nets := Function.update st.nets self
            { st.nets self with m_wires := (st.nets self).m_wires ++ [wire] } })

/-- The method `WireNet::addWire`. -/
def WireNet.addWire (E : Externals R D) (st : State R) (self : Nat) (wire : Nat) :
    Option (Bool × State R) :=
  let r := net.addWire st self wire
  if !r.1 then some (false, r.2)
  else (WireNet.updateLabelPos E true r.2 self).map (fun s => (true, s))

/-- Modelled from the spec: `net::set_name` of the base class `wire_system::net`, which is
defined outside `wirenet.cpp`; it stores the name of the net ("rename net"). -/
def net.set_name (st : State R) (self : Nat) (name : QString) : State R :=
  { st with nets := Function.update st.nets self { st.nets self with m_name := name } }

/-- The call `Label::setText`; the text rectangle follows the text through
`Externals.textRectCenter`. -/
def Label.setText (l : Label R) (text : QString) : Label R := { l with text := text }

/-- The call `setVisible` on the label (its host, if any, is taken to be visible). -/
def Label.setVisible (l : Label R) (visible : Bool) : Label R := { l with visible := visible }

/-- The method `WireNet::set_name`. -/
def WireNet.set_name (E : Externals R D) (st : State R) (self : Nat) (name : QString) :
    Option (State R) :=
  let st1 := net.set_name st self name
  let st2 := st1.setLabel self ((st1.nets self).label.setText (st1.nets self).m_name)
  let st3 := st2.setLabel self
    ((st2.nets self).label.setVisible (!(st2.nets self).m_name.isEmpty))
  WireNet.updateLabelPos E true st3 self

/-- The method `WireNet::toggleLabel`. -/
def WireNet.toggleLabel (E : Externals R D) (st : State R) (self : Nat) : Option (State R) :=
  let label := (st.nets self).label
  let st1 := st.setLabel self (label.setVisible (!label.text.isEmpty && !label.visible))
  WireNet.updateLabelPos E true st1 self

/-- The object made by the constructor `WireNet::WireNet`: no scene, a hidden label at
`(0, 0)`; the base class starts with an empty name and no wires, the label with an empty
text and no host. -/
def WireNet.ctor (E : Externals R D) : WireNet R :=
  { m_name := []
    m_wires := []
    label :=
      { pos := (E.zero, E.zero), parentItem := none, visible := false, text := [],
        highlighted := false, connectionPoint := (E.zero, E.zero) }
    scene := false
    signalsBlocked := false }

/-- Construct a `WireNet` at the address `self`. -/
def State.construct (E : Externals R D) (st : State R) (self : Nat) : State R :=
  { st with nets := Function.update st.nets self (WireNet.ctor E) }

/-! ## Loading -/

/-- What `WireNet::from_container` reads from a `gpds::container`: the value `"name"`, the
effect of `Label::from_container` for the value `"label"`, and under `"wires"` one entry per
`"wire"` value: the content of the wire that `ItemFactory` creates and
`Wire::from_container` fills, or `none` when the created item is not a `Wire`. -/
structure container (R : Type) where
  name : Option QString
  label : Option (Label R → Label R)
  wires : Option (List (Option (Wire R)))

/-- The loop of `WireNet::from_container` over the `"wire"` values.  The shared pointers
`newWire` and `sharedNewWire` are the only owners of the new wire until `_scene->addItem`:
on the early return for an unset scene the wire is destroyed, and `m_wires` keeps an
expired reference to it. -/
def WireNet.from_container_wires (E : Externals R D) (self : Nat) :
    List (Option (Wire R)) → State R → Option (State R)
  | [], st => some st
  | none :: rest, st => WireNet.from_container_wires E self rest st
  | some w :: rest, st =>
    let sharedNewWire := st.nextWire
    let st1 : State R :=
      { st with
        wires := Function.update st.wires sharedNewWire
          (some { w with isItem := true, net := none })
        nextWire := sharedNewWire + 1 }
    match WireNet.addWire E st1 self sharedNewWire with
    | none => none
    | some r =>
      if !(r.2.nets self).scene then
        some { r.2 with wires := Function.update r.2.wires sharedNewWire none }
      else
        WireNet.from_container_wires E self rest
          { r.2 with sceneItems := r.2.sceneItems ++ [sharedNewWire] }

/-- The method `WireNet::from_container`.  With `debug` the `Q_ASSERT` of the first line is
compiled in and ends the program when the scene is unset; `.value()` on a missing `"wires"`
value throws.  The `"wire"` values themselves are non-null. -/
def WireNet.from_container (E : Externals R D) (debug : Bool) (st : State R) (self : Nat)
    (c : container R) : Option (State R) :=
  if debug && !(st.nets self).scene then none
  else
    match WireNet.set_name E st self (c.name.getD []) with
    | none => none
    | some st1 =>
      let st2 : State R :=
        match c.label with
        | some load => st1.setLabel self (load (st1.nets self).label)
        | none => st1
      match c.wires with
      | none => none
      | some ws => WireNet.from_container_wires E self ws st2

/-! ## The arithmetic of the examples -/

/-- Rounding of the exact value `q` to the nearest number with `p` significant bits, ties
to the even significand (the default rounding of IEEE 754 arithmetic).  The exponent is
unbounded: overflow and subnormal numbers are outside this function. -/
def roundNearestEven (p : ℕ) (q : ℚ) : ℚ :=
  let ulp : ℚ := 2 ^ (Int.log 2 |q| + 1 - (p : ℤ))
  let m : ℚ := q / ulp
  let f : ℤ := ⌊m⌋
  if m - f < 1 / 2 then f * ulp
  else if 1 / 2 < m - f then (f + 1) * ulp
  else if f % 2 = 0 then f * ulp else (f + 1) * ulp

/-- Rounding to a `double` (`qreal`): 53 significant bits. -/
def roundDouble (q : ℚ) : ℚ := roundNearestEven 53 q

/-- Rounding to a `float`: 24 significant bits. -/
def roundFloat (q : ℚ) : ℚ := roundNearestEven 24 q

/-- Modelled from the spec: `Utils::pointOnLineClosestToPoint`, which is defined outside
`wirenet.cpp`; the spec: "compute the closest point to the current anchor position
using point-to-segment projection".  The projection of `point` onto the line through `p1`
and `p2`, clamped to the segment, computed without rounding; in the examples the result is
an end point of the segment or the point `(0, 0)`. -/
def Utils.pointOnLineClosestToPoint (p1 p2 point : QPointF ℚ) : QPointF ℚ :=
  let lineDiffVector : QPointF ℚ := (p2.1 - p1.1, p2.2 - p1.2)
  let lineSegSqrLength := lineDiffVector.1 * lineDiffVector.1 + lineDiffVector.2 * lineDiffVector.2
  let lineToPointVect : QPointF ℚ := (point.1 - p1.1, point.2 - p1.2)
  let dotProduct := lineDiffVector.1 * lineToPointVect.1 + lineDiffVector.2 * lineToPointVect.2
  let percAlongLine := dotProduct / lineSegSqrLength
  if percAlongLine ≤ 0 then p1
  else if percAlongLine ≥ 1 then p2
  else (p1.1 + percAlongLine * lineDiffVector.1, p1.2 + percAlongLine * lineDiffVector.2)

/-- Externals for the examples.  Coordinates are the values of `double` numbers and squared
lengths the values of `float` numbers, both as rationals.  A sum or difference of points
is rounded to `double` in each coordinate; `QVector2D(p).lengthSquared()` converts both
coordinates to `float` and rounds each product and the sum to `float`.  Case folding is on
the letters `A` to `Z`, and text rectangles are centred at the origin. -/
def exampleExternals : Externals ℚ ℚ :=
  { foldCase := Char.toLower
    zero := 0
    isNull := fun p => decide (p.1 = 0) && decide (p.2 = 0)
    add := fun p q => (roundDouble (p.1 + q.1), roundDouble (p.2 + q.2))
    sub := fun p q => (roundDouble (p.1 - q.1), roundDouble (p.2 - q.2))
    lengthSquared := fun p =>
      roundFloat (roundFloat (roundFloat p.1 * roundFloat p.1)
        + roundFloat (roundFloat p.2 * roundFloat p.2))
    greater := fun a b => decide (a > b)
    pointOnLineClosestToPoint := Utils.pointOnLineClosestToPoint
    textRectCenter := fun _ => (0, 0)
    isNull_zero := by simp }

/-! ## States for the examples -/

/-- A wire of the scenario of the spec: the segment from `(x1, 0)` to `(x2, 0)`. -/
def clkWire (x1 x2 : ℚ) (owner : Option Nat) : Wire ℚ :=
  { isItem := true, pos := (0, 0), scenePos := (0, 0),
    line_segments := [{ p1 := (x1, 0), p2 := (x2, 0) }], highlighted := false,
    net := owner }

/-- A net of the scenario, with its single wire and the name "CLK". -/
def clkNet (wire : Nat) : WireNet ℚ :=
  { m_name := ['C', 'L', 'K']
    m_wires := [wire]
    label :=
      { pos := (0, 1), parentItem := some wire, visible := true, text := ['C', 'L', 'K'],
        highlighted := false, connectionPoint := (0, 0) }
    scene := true
    signalsBlocked := false }

/-- The scenario of the spec: net `0` is the wire `(0,0)-(10,0)`, net `1` is the wire
`(20,0)-(30,0)`, both are named "CLK" and are the nets of the manager.  Wire `2`, the
segment `(10,0)-(20,0)`, exists and belongs to no net yet. -/
def clkState : State ℚ :=
  { wires := fun p =>
      if p = 0 then some (clkWire 0 10 (some 0))
      else if p = 1 then some (clkWire 20 30 (some 1))
      else if p = 2 then some (clkWire 10 20 none)
      else none
    nets := fun n =>
      if n = 0 then clkNet 0 else if n = 1 then clkNet 1 else WireNet.ctor exampleExternals
    manager := [some 0, some 1]
    nextWire := 3
    sceneItems := [0, 1, 2] }

/-- A manager with a null entry and four nets: `0` "clk", `1` unnamed, `2` "CLK",
`3` "rst"; none of them has a wire. -/
def mixedState : State ℚ :=
  { wires := fun _ => none
    nets := fun n =>
      if n = 0 then { WireNet.ctor exampleExternals with m_name := ['c', 'l', 'k'] }
      else if n = 2 then { WireNet.ctor exampleExternals with m_name := ['C', 'L', 'K'] }
      else if n = 3 then { WireNet.ctor exampleExternals with m_name := ['r', 's', 't'] }
      else WireNet.ctor exampleExternals
    manager := [some 0, none, some 1, some 2, some 3]
    nextWire := 0
    sceneItems := [] }

/-- A net named "A" at address `0` with a visible, unhosted label whose anchor is `(0, 1)`,
and two wires: wire `0` is the segment `(-5,0)-(5,0)`, which passes through the origin
right below the anchor, wire `1` is the distant segment `(10,10)-(20,10)`. -/
def originState : State ℚ :=
  { wires := fun p =>
      if p = 0 then
        some { isItem := true, pos := (0, 0), scenePos := (0, 0),
               line_segments := [{ p1 := (-5, 0), p2 := (5, 0) }], highlighted := false,
               net := some 0 }
      else if p = 1 then
        some { isItem := true, pos := (0, 0), scenePos := (0, 0),
               line_segments := [{ p1 := (10, 10), p2 := (20, 10) }], highlighted := false,
               net := some 0 }
      else none
    nets := fun _ =>
      { m_name := ['A']
        m_wires := [0, 1]
        label :=
          { pos := (0, 1), parentItem := none, visible := true, text := ['A'],
            highlighted := false, connectionPoint := (0, 0) }
        scene := true
        signalsBlocked := false }
    manager := [some 0]
    nextWire := 2
    sceneItems := [0, 1] }

/-- The state that `updateLabelPos(true)` makes of `originState`: the label is hosted on
wire `1` and its connection point is `(10, 10)`. -/
def originPlaced : State ℚ :=
  originState.setLabel 0
    { pos := (0, 1), parentItem := some 1, visible := true, text := ['A'],
      highlighted := false, connectionPoint := (10, 10) }

/-- The `x` coordinate of the label in `driftState`: the `double` next above `1`. -/
def driftX : ℚ := 1 + 1 / 2 ^ 52

/-- The `x` coordinate of the left end of wire `0` in `driftState`. -/
def driftA : ℚ := 3 / 2 + 1 / 2 ^ 25 + 1 / 2 ^ 52

/-- The `x` coordinate of the right end of wire `1` in `driftState`. -/
def driftB : ℚ := 1 / 2 + 1 / 2 ^ 52

/-- A net named "A" at address `0` with a visible, unhosted label at `(driftX, 0)` and two
wires on the `x` axis.  Wire `0` is the segment from `(driftA, 0)` to `(3, 0)`, to the
right of the label, and the item is positioned at `(4, 0)`; wire `1` is the segment from
`(1/4, 0)` to `(driftB, 0)`, to the left of the label, positioned at `(0, 0)`.  All
coordinates are `double` values. -/
def driftState : State ℚ :=
  { wires := fun p =>
      if p = 0 then
        some { isItem := true, pos := (4, 0), scenePos := (4, 0),
               line_segments := [{ p1 := (driftA, 0), p2 := (3, 0) }], highlighted := false,
               net := some 0 }
      else if p = 1 then
        some { isItem := true, pos := (0, 0), scenePos := (0, 0),
               line_segments := [{ p1 := (1 / 4, 0), p2 := (driftB, 0) }],
               highlighted := false, net := some 0 }
      else none
    nets := fun _ =>
      { m_name := ['A']
        m_wires := [0, 1]
        label :=
          { pos := (driftX, 0), parentItem := none, visible := true, text := ['A'],
            highlighted := false, connectionPoint := (0, 0) }
        scene := true
        signalsBlocked := false }
    manager := [some 0]
    nextWire := 2
    sceneItems := [0, 1] }

/-- The state that `updateLabelPos(true)` makes of `driftState`: the label is hosted on
wire `0` with the stored offset `(-3, 0)`. -/
def driftPlaced : State ℚ :=
  driftState.setLabel 0
    { pos := (-3, 0), parentItem := some 0, visible := true, text := ['A'],
      highlighted := false,
      connectionPoint := exampleExternals.sub (driftA, 0) (4, 0) }

/-- The state that a second `updateLabelPos(true)` makes of `driftPlaced`: the label is
hosted on wire `1`. -/
def driftMoved : State ℚ :=
  driftState.setLabel 0
    { pos := (1, 0), parentItem := some 1, visible := true, text := ['A'],
      highlighted := false, connectionPoint := (driftB, 0) }

/-- A state with no wire, in which every net object is as the constructor leaves it; in
particular no net has a scene. -/
def freshState : State ℚ :=
  { wires := fun _ => none
    nets := fun _ => WireNet.ctor exampleExternals
    manager := []
    nextWire := 0
    sceneItems := [] }

/-- A container with the name "X", no label value and one wire, the segment
`(0,0)-(10,0)`. -/
def xContainer : container ℚ :=
  { name := some ['X']
    label := none
    wires := some [some (clkWire 0 10 none)] }

/-- The states of the net at `self` that are reachable from the constructor by calls of
`set_name` and `toggleLabel`. -/
inductive Reachable (E : Externals R D) (self : Nat) : State R → Prop
  | ctor (st : State R) : Reachable E self (st.construct E self)
  | set_name (st st1 : State R) (name : QString) :
      Reachable E self st → WireNet.set_name E st self name = some st1 → Reachable E self st1
  | toggleLabel (st st1 : State R) :
      Reachable E self st → WireNet.toggleLabel E st self = some st1 → Reachable E self st1

/-- The net at `0` right after its construction in `freshState`, then named "X". -/
def namedState : State ℚ :=
  (net.set_name (freshState.construct exampleExternals 0) 0 ['X']).setLabel 0
    { ((freshState.construct exampleExternals 0).nets 0).label with
      text := ['X'], visible := true }

/-! ## Auxiliary predicates -/

/-- The test that `WireNet::nets()` applies to a non-null net of the manager. -/
def WireNet.inGlobalNet (E : Externals R D) (st : State R) (self : Nat) (net : Nat) : Bool :=
  !(st.nets net).m_name.isEmpty &&
    decide (QString.compare E (st.nets net).m_name (st.nets self).m_name = 0)

/-- Invariant of the search over the wires `l`: either nothing has been selected yet and
`closestPoint` is null, or the selected wire is one of `l`. -/
def Closest.ok (E : Externals R D) (l : List Nat) (c : Closest R) : Prop :=
  (c.closestWire = none ∧ E.isNull c.closestPoint = true) ∨
    ∃ q, q ∈ l ∧ c.closestWire = some q

/-- The invariant of the reachable states: the label shows the name of the net, it is
visible only for a non-empty name, and the net has neither wires nor a label host. -/
def LabelInv (st : State R) (self : Nat) : Prop :=
  (st.nets self).label.text = (st.nets self).m_name ∧
    ((st.nets self).label.visible = true → (st.nets self).m_name ≠ []) ∧
    (st.nets self).m_wires = [] ∧ (st.nets self).label.parentItem = none


/-! ## Facts about `QString::compare` and `WireNet::nets` -/

theorem compare_eq_zero_iff (E : Externals R D) (a b : QString) :
    QString.compare E a b = 0 ↔ a.map E.foldCase = b.map E.foldCase := by
  induction a generalizing b with
  | nil => cases b <;> simp [QString.compare]
  | cons x xs ih =>
    cases b with
    | nil => simp [QString.compare]
    | cons y ys =>
      simp only [QString.compare, List.map_cons, List.cons.injEq]
      by_cases h : E.foldCase x = E.foldCase y
      · simp [h, ih]
      · simp only [h, if_false, false_and, iff_false]
        intro h0
        apply h
        have h1 : (E.foldCase x).toNat = (E.foldCase y).toNat := by omega
        rw [← Char.ofNat_toNat (E.foldCase x), h1, Char.ofNat_toNat]

theorem compare_self (E : Externals R D) (a : QString) : QString.compare E a a = 0 :=
  (compare_eq_zero_iff E a a).2 rfl

theorem compare_symm (E : Externals R D) (a b : QString) :
    QString.compare E a b = 0 ↔ QString.compare E b a = 0 := by
  rw [compare_eq_zero_iff, compare_eq_zero_iff]
  exact eq_comm

theorem compare_nil_right (E : Externals R D) (a : QString) (h : QString.compare E a [] = 0) :
    a = [] := by
  cases a with
  | nil => rfl
  | cons x xs => simp [QString.compare] at h

theorem netsLoop_eq (E : Externals R D) (st : State R) (self : Nat) (l : List (Option Nat))
    (acc : List Nat) :
    WireNet.netsLoop E st self l acc
      = acc ++ (l.filterMap id).filter (WireNet.inGlobalNet E st self) := by
  induction l generalizing acc with
  | nil => simp [WireNet.netsLoop]
  | cons x xs ih =>
    cases x with
    | none => simp [WireNet.netsLoop, ih]
    | some n =>
      simp only [WireNet.netsLoop, List.filterMap_cons, id]
      by_cases h1 : (st.nets n).m_name.isEmpty = true
      · simp [h1, ih, WireNet.inGlobalNet, List.filter_cons]
      · by_cases h2 : QString.compare E (st.nets n).m_name (st.nets self).m_name = 0
        · simp [h1, h2, ih, WireNet.inGlobalNet, List.filter_cons]
        · simp [h1, h2, ih, WireNet.inGlobalNet, List.filter_cons]

theorem nets_eq_filter (E : Externals R D) (st : State R) (self : Nat) :
    WireNet.nets E st self
      = (st.manager.filterMap id).filter (WireNet.inGlobalNet E st self) := by
  simp [WireNet.nets, netsLoop_eq]

theorem mem_nets_iff (E : Externals R D) (st : State R) (self net : Nat) :
    net ∈ WireNet.nets E st self ↔
      some net ∈ st.manager ∧ (st.nets net).m_name ≠ [] ∧
        QString.compare E (st.nets net).m_name (st.nets self).m_name = 0 := by
  rw [nets_eq_filter, List.mem_filter, List.mem_filterMap]
  simp [WireNet.inGlobalNet, List.isEmpty_iff]

theorem nets_unnamed (E : Externals R D) (st : State R) (self : Nat)
    (h : (st.nets self).m_name = []) : WireNet.nets E st self = [] := by
  rw [List.eq_nil_iff_forall_not_mem]
  intro net hmem
  rw [mem_nets_iff, h] at hmem
  exact hmem.2.1 (compare_nil_right E _ hmem.2.2)

theorem nets_congr (E : Externals R D) (st st1 : State R) (self : Nat)
    (hm : st1.manager = st.manager)
    (hn : ∀ n, (st1.nets n).m_name = (st.nets n).m_name) :
    WireNet.nets E st1 self = WireNet.nets E st self := by
  rw [nets_eq_filter, nets_eq_filter, hm]
  apply List.filter_congr
  intro x _
  simp [WireNet.inGlobalNet, hn]

theorem setLabel_name (st : State R) (self : Nat) (l : Label R) (n : Nat) :
    ((st.setLabel self l).nets n).m_name = (st.nets n).m_name := by
  by_cases h : n = self
  · subst h; simp [State.setLabel]
  · simp [State.setLabel, Function.update_noteq h]

theorem blockSignals_name (st : State R) (net : Nat) (b : Bool) (n : Nat) :
    ((st.blockSignals net b).nets n).m_name = (st.nets n).m_name := by
  by_cases h : n = net
  · subst h; simp [State.blockSignals]
  · simp [State.blockSignals, Function.update_noteq h]

theorem highlightOwn_name (st : State R) (self : Nat) (highlighted : Bool) (n : Nat) :
    ((WireNet.highlightOwn st self highlighted).nets n).m_name = (st.nets n).m_name := by
  simp only [WireNet.highlightOwn]
  rw [setLabel_name]

theorem nets_highlightOwn (E : Externals R D) (st : State R) (self : Nat) (highlighted : Bool)
    (x : Nat) :
    WireNet.nets E (WireNet.highlightOwn st self highlighted) x = WireNet.nets E st x :=
  nets_congr E st _ x rfl (highlightOwn_name st self highlighted)

/-! ## Highlight propagation never returns in a group of two or more nets -/

/-- One more level of call depth: `setHighlighted` highlights the net itself and then runs
`highlight_global_net`. -/
theorem setHighlighted_succ (E : Externals R D) (fuel : Nat) (st : State R) (self : Nat)
    (highlighted : Bool) :
    WireNet.setHighlighted E (fuel + 1) st self highlighted =
      WireNet.highlight_global_net E fuel (WireNet.highlightOwn st self highlighted) self
        highlighted := rfl

theorem highlightLoop_all_self (call : State R → Nat → Option (State R)) (self : Nat) (st : State R) :
    ∀ l : List Nat, (∀ other, other ∈ l → other = self) →
      WireNet.highlightLoop call self l st = some st := by
  intro l
  induction l with
  | nil => intro _; rfl
  | cons x xs ih =>
    intro hall
    simp only [WireNet.highlightLoop, hall x (List.mem_cons_self _ _), if_true]
    exact ih (fun o ho => hall o (List.mem_cons_of_mem _ ho))

/-- On a net whose global net has no other member, `setHighlighted` returns after
highlighting the net itself. -/
theorem setHighlighted_alone (E : Externals R D) (fuel : Nat) (st : State R) (self : Nat)
    (highlighted : Bool) (hall : ∀ other, other ∈ WireNet.nets E st self → other = self) :
    WireNet.setHighlighted E (fuel + 1) st self highlighted =
      some (WireNet.highlightOwn st self highlighted) := by
  simp only [WireNet.setHighlighted]
  rw [nets_highlightOwn]
  exact highlightLoop_all_self _ self _ _ hall

theorem highlightLoop_none (call : State R → Nat → Option (State R)) (self : Nat) (st : State R) :
    ∀ l : List Nat,
      (∀ other, other ∈ l → other ≠ self →
        call (st.blockSignals other true) other = none) →
      (∃ other, other ∈ l ∧ other ≠ self) →
      WireNet.highlightLoop call self l st = none := by
  intro l
  induction l with
  | nil => intro _ hex; obtain ⟨o, ho, _⟩ := hex; simp at ho
  | cons x xs ih =>
    intro hcall hex
    by_cases hx : x = self
    · simp only [WireNet.highlightLoop, hx, if_true]
      apply ih
      · intro other ho hne
        exact hcall other (List.mem_cons_of_mem _ ho) hne
      · obtain ⟨o, ho, hne⟩ := hex
        rcases List.mem_cons.1 ho with h | h
        · exact absurd (h.trans hx) hne
        · exact ⟨o, h, hne⟩
    · simp only [WireNet.highlightLoop, hx, if_false]
      rw [hcall x (List.mem_cons_self _ _) hx]

theorem setHighlighted_none_of_peer (E : Externals R D) (highlighted : Bool) :
    ∀ (fuel : Nat) (st : State R) (self other : Nat),
      some self ∈ st.manager → other ≠ self → other ∈ WireNet.nets E st self →
      WireNet.setHighlighted E fuel st self highlighted = none := by
  intro fuel
  induction fuel with
  | zero => intro st self other _ _ _; rfl
  | succ fuel ih =>
    intro st self other hreg hne hmem
    simp only [WireNet.setHighlighted]
    rw [nets_highlightOwn]
    apply highlightLoop_none
    · intro o ho hoself
      apply ih _ o self
      · exact ((mem_nets_iff E st self o).1 ho).1
      · exact fun h => hoself h.symm
      · rw [nets_congr E (WireNet.highlightOwn st self highlighted)
          ((WireNet.highlightOwn st self highlighted).blockSignals o true) o rfl
          (fun n => blockSignals_name _ _ _ n), nets_highlightOwn]
        rw [mem_nets_iff] at ho ⊢
        refine ⟨hreg, ?_, (compare_symm E _ _).1 ho.2.2⟩
        intro hnil
        rw [hnil] at ho
        exact ho.2.1 (compare_nil_right E _ ho.2.2)
    · exact ⟨other, hmem, hne⟩

theorem highlightWires_apply (highlighted : Bool) (l : List Nat) :
    ∀ (wires : Nat → Option (Wire R)) (p : Nat),
      WireNet.highlightWires highlighted wires l p =
        if p ∈ l then
          (wires p).map (fun w => if w.isItem then w.setHighlighted highlighted else w)
        else wires p := by
  induction l with
  | nil => intro wires p; simp [WireNet.highlightWires]
  | cons x xs ih =>
    intro wires p
    simp only [WireNet.highlightWires]
    cases hx : wires x with
    | none =>
      simp only [ih]
      by_cases hp : p = x
      · subst hp; simp [hx]
      · simp [hp]
    | some w =>
      by_cases hi : w.isItem = true
      · dsimp only
        rw [if_pos hi, ih]
        by_cases hp : p = x
        · subst hp
          simp [hx, hi, Wire.setHighlighted]
        · simp [hp, Function.update_noteq hp]
      · dsimp only
        rw [if_neg hi, ih]
        by_cases hp : p = x
        · subst hp; simp [hx, hi]
        · simp [hp]

/-! ## The claims on `nets()` and on highlighting -/

/-- C1 (refuted on the code): in the scenario of the spec, nets `0` and `1` both named
"CLK", the call `setHighlighted` on net `0` does not return, whatever case folding is used
and however deep the calls may nest: net `1` calls back into net `0`, which calls net `1`
again, without end.  No state "after `setHighlighted`" exists in which both are
highlighted. -/
theorem setHighlighted_clk_never_returns (E : Externals ℚ D) (fuel : Nat)
    (highlighted : Bool) :
    WireNet.setHighlighted E fuel clkState 0 highlighted = none := by
  apply setHighlighted_none_of_peer E highlighted fuel clkState 0 1
  · decide
  · decide
  · rw [mem_nets_iff]
    refine ⟨by decide, by decide, ?_⟩
    exact compare_self E _

/-- C2 (refuted on the code): whenever a net `N` of the manager shares its name,
case-insensitively, with another net `M` of the manager, `setHighlighted` on `N` does not
terminate: for every bound on the call depth the bound is exceeded.  The guard of
`highlight_global_net` only skips the net that is running the loop, so `M` calls back
into `N`. -/
theorem setHighlighted_group_never_terminates (E : Externals R D) (st : State R) (N M : Nat)
    (highlighted : Bool) (fuel : Nat)
    (hN : some N ∈ st.manager) (hM : some M ∈ st.manager) (hne : M ≠ N)
    (hname : (st.nets M).m_name ≠ [])
    (hsame : (st.nets M).m_name.map E.foldCase = (st.nets N).m_name.map E.foldCase) :
    WireNet.setHighlighted E fuel st N highlighted = none :=
  setHighlighted_none_of_peer E highlighted fuel st N M hN hne
    ((mem_nets_iff E st N M).2 ⟨hM, hname, (compare_eq_zero_iff E _ _).2 hsame⟩)

/-- Witness for C2: nets `0` ("clk") and `2` ("CLK") of `mixedState`. -/
theorem setHighlighted_group_never_terminates_witness :
    some 0 ∈ mixedState.manager ∧ some 2 ∈ mixedState.manager ∧
      WireNet.setHighlighted exampleExternals 1000 mixedState 0 true = none :=
  ⟨by decide, by decide,
    setHighlighted_group_never_terminates exampleExternals mixedState 0 2 true 1000
      (by decide) (by decide) (by decide) (by decide) (by decide)⟩

/-- C3: for a net `N` with an empty name, `nets()` is empty, and `setHighlighted` returns
(for every positive call depth) a state in which every other net object, the manager
list and every wire outside `N` are unchanged; `N` itself changes only in the highlighted
flag of its label, and its wires only in their highlighted flag. -/
theorem setHighlighted_unnamed (E : Externals R D) (st : State R) (N : Nat) (highlighted : Bool)
    (fuel : Nat) (h : (st.nets N).m_name = []) :
    WireNet.nets E st N = [] ∧
      ∃ st1, WireNet.setHighlighted E (fuel + 1) st N highlighted = some st1 ∧
        (∀ M, M ≠ N → st1.nets M = st.nets M) ∧
        st1.manager = st.manager ∧
        (∀ p, p ∉ (st.nets N).m_wires → st1.wires p = st.wires p) ∧
        (∀ p, p ∈ (st.nets N).m_wires → st1.wires p =
          (st.wires p).map (fun w => if w.isItem then { w with highlighted := highlighted }
            else w)) ∧
        st1.nets N =
          { st.nets N with
            label := { (st.nets N).label with highlighted := highlighted } } := by
  refine ⟨nets_unnamed E st N h, WireNet.highlightOwn st N highlighted, ?_, ?_, rfl, ?_, ?_, ?_⟩
  · simp only [WireNet.setHighlighted]
    rw [nets_highlightOwn, nets_unnamed E st N h]
    rfl
  · intro M hM
    simp [WireNet.highlightOwn, State.setLabel, Function.update_noteq hM]
  · intro p hp
    simp [WireNet.highlightOwn, State.setLabel, highlightWires_apply, hp]
  · intro p hp
    simp [WireNet.highlightOwn, State.setLabel, highlightWires_apply, hp, Wire.setHighlighted]
  · simp [WireNet.highlightOwn, State.setLabel, Label.setHighlighted]

/-- Witness for C3: the unnamed net `1` of `mixedState`. -/
theorem setHighlighted_unnamed_witness :
    (mixedState.nets 1).m_name = [] ∧ WireNet.nets exampleExternals mixedState 1 = [] :=
  ⟨by decide, (setHighlighted_unnamed exampleExternals mixedState 1 true 0 (by decide)).1⟩

/-- C4: `nets()` on `N` is a function of the state alone (it returns a list and no state)
and yields, in the order of the manager list, exactly the non-null nets of the manager
whose name is non-empty and equal to the name of `N` after case folding; a named net `N` of
the manager is in its own result; and for nets `N`, `M` of the manager, `M` is in
`N.nets()` iff `N` is in `M.nets()`. -/
theorem nets_global_net_group (E : Externals R D) (st : State R) (N : Nat) :
    WireNet.nets E st N =
        (st.manager.filterMap id).filter (fun M =>
          decide ((st.nets M).m_name ≠ []) &&
            decide ((st.nets M).m_name.map E.foldCase = (st.nets N).m_name.map E.foldCase)) ∧
      (some N ∈ st.manager → (st.nets N).m_name ≠ [] → N ∈ WireNet.nets E st N) ∧
      (∀ M, some N ∈ st.manager → some M ∈ st.manager →
        (M ∈ WireNet.nets E st N ↔ N ∈ WireNet.nets E st M)) := by
  refine ⟨?_, ?_, ?_⟩
  · rw [nets_eq_filter]
    apply List.filter_congr
    intro M _
    simp only [WireNet.inGlobalNet, compare_eq_zero_iff, List.isEmpty_iff]
    cases (st.nets M).m_name <;> simp
  · intro hN hname
    exact (mem_nets_iff E st N N).2 ⟨hN, hname, compare_self E _⟩
  · intro M hN hM
    rw [mem_nets_iff, mem_nets_iff]
    constructor
    · rintro ⟨_, hname, hc⟩
      refine ⟨hN, ?_, (compare_symm E _ _).1 hc⟩
      intro hnil
      rw [hnil] at hc
      exact hname (compare_nil_right E _ hc)
    · rintro ⟨_, hname, hc⟩
      refine ⟨hM, ?_, (compare_symm E _ _).1 hc⟩
      intro hnil
      rw [hnil] at hc
      exact hname (compare_nil_right E _ hc)

/-- Witness for C4: in `mixedState` net `2` ("CLK") is in the result of net `0` ("clk"),
and conversely. -/
theorem nets_global_net_group_witness :
    some 0 ∈ mixedState.manager ∧ some 2 ∈ mixedState.manager ∧
      (2 ∈ WireNet.nets exampleExternals mixedState 0 ↔
        0 ∈ WireNet.nets exampleExternals mixedState 2) :=
  ⟨by decide, by decide,
    (nets_global_net_group exampleExternals mixedState 0).2.2 2 (by decide) (by decide)⟩


/-! ## Facts about label placement -/

@[simp]
theorem setLabel_wires (st : State R) (self : Nat) (l : Label R) :
    (st.setLabel self l).wires = st.wires := rfl

@[simp]
theorem setLabel_label (st : State R) (self : Nat) (l : Label R) :
    ((st.setLabel self l).nets self).label = l := by
  simp [State.setLabel]

@[simp]
theorem setLabel_m_wires (st : State R) (self : Nat) (l : Label R) :
    ((st.setLabel self l).nets self).m_wires = (st.nets self).m_wires := by
  simp [State.setLabel]

@[simp]
theorem setLabel_setLabel (st : State R) (self : Nat) (l l1 : Label R) :
    (st.setLabel self l).setLabel self l1 = st.setLabel self l1 := by
  simp [State.setLabel]

theorem labelScenePos_congr (E : Externals R D) (st st1 : State R) (h : st1.wires = st.wires)
    (l : Label R) : st1.labelScenePos E l = st.labelScenePos E l := by
  simp [State.labelScenePos, h]

theorem findClosest_congr (E : Externals R D) (st st1 : State R) (h : st1.wires = st.wires)
    (labelPos : QPointF R) (l : List Nat) :
    ∀ c, WireNet.findClosest E st1 labelPos l c = WireNet.findClosest E st labelPos l c := by
  induction l with
  | nil => intro c; rfl
  | cons x xs ih =>
    intro c
    simp only [WireNet.findClosest, h]
    cases st.wires x with
    | none => rfl
    | some w => exact ih _

theorem updateLabelConnection_congr (E : Externals R D) (st st1 : State R)
    (h : st1.wires = st.wires) (closestPoint : QPointF R) (l : Label R) :
    WireNet.updateLabelConnection E st1 closestPoint l
      = WireNet.updateLabelConnection E st closestPoint l := by
  simp [WireNet.updateLabelConnection, h]

/-- What a successful "Update the parent" step returns: the label itself when no re-hosting
takes place, the label on its new host otherwise. -/
theorem updateLabelParent_some (E : Externals R D) (updateParent : Bool) (labelPos : QPointF R)
    (closestWire : Nat) (w : Wire R) (label label1 : Label R)
    (h : WireNet.updateLabelParent E updateParent labelPos closestWire w label = some label1) :
    (label1 = label ∧
        (updateParent = false ∨
          label.parentItem = (if w.isItem then some closestWire else none))) ∨
      (updateParent = true ∧ w.isItem = true ∧ label.parentItem ≠ some closestWire ∧
        label1 = { label with
          parentItem := some closestWire
          pos := E.sub (E.sub labelPos (E.textRectCenter label.text)) w.scenePos }) := by
  unfold WireNet.updateLabelParent at h
  cases hi : w.isItem <;> cases updateParent <;> simp [hi] at h
  · exact Or.inl ⟨h.symm, Or.inl rfl⟩
  · exact Or.inl ⟨h.2.symm, Or.inr h.1⟩
  · exact Or.inl ⟨h.symm, Or.inl rfl⟩
  · by_cases hp : label.parentItem = some closestWire
    · simp [hp] at h
      exact Or.inl ⟨h.symm, Or.inr hp⟩
    · simp [hp] at h
      exact Or.inr ⟨rfl, rfl, hp, h.symm⟩

/-- A successful call of `updateLabelPos` either leaves the state as it is (hidden label,
or no wire segment at all) or runs the two update steps on the closest wire. -/
theorem updateLabelPos_some (E : Externals R D) (updateParent : Bool) (st st1 : State R)
    (N : Nat) (h : WireNet.updateLabelPos E updateParent st N = some st1) :
    ((st.nets N).label.visible = false ∧ st1 = st) ∨
      ((st.nets N).label.visible = true ∧
        ∃ sp c, st.labelScenePos E (st.nets N).label = some sp ∧
          WireNet.findClosest E st (E.add (E.textRectCenter (st.nets N).label.text) sp)
            (st.nets N).m_wires (Closest.init E) = some c ∧
          ((c.closestWire = none ∧ st1 = st) ∨
            ∃ cw w l1 l2, c.closestWire = some cw ∧ st.wires cw = some w ∧
              WireNet.updateLabelParent E updateParent
                (E.add (E.textRectCenter (st.nets N).label.text) sp) cw w (st.nets N).label
                  = some l1 ∧
              WireNet.updateLabelConnection E st c.closestPoint l1 = some l2 ∧
              st1 = st.setLabel N l2)) := by
  unfold WireNet.updateLabelPos at h
  cases hvis : (st.nets N).label.visible with
  | false =>
    simp [hvis] at h
    exact Or.inl ⟨rfl, h.symm⟩
  | true =>
    right
    refine ⟨rfl, ?_⟩
    simp only [hvis, Bool.not_true, Bool.false_eq_true, if_false] at h
    cases hsp : st.labelScenePos E (st.nets N).label with
    | none => simp [hsp] at h
    | some sp =>
      simp only [hsp] at h
      cases hfc : WireNet.findClosest E st
          (E.add (E.textRectCenter (st.nets N).label.text) sp)
          (st.nets N).m_wires (Closest.init E) with
      | none => simp [hfc] at h
      | some c =>
        simp only [hfc] at h
        refine ⟨sp, c, rfl, hfc, ?_⟩
        cases hcw : c.closestWire with
        | none =>
          simp [hcw] at h
          exact Or.inl ⟨rfl, h.symm⟩
        | some cw =>
          simp only [hcw] at h
          cases hw : st.wires cw with
          | none => simp [hw] at h
          | some w =>
            simp only [hw] at h
            cases hl1 : WireNet.updateLabelParent E updateParent
                (E.add (E.textRectCenter (st.nets N).label.text) sp) cw w
                (st.nets N).label with
            | none => simp [hl1] at h
            | some l1 =>
              simp only [hl1] at h
              cases hl2 : WireNet.updateLabelConnection E st c.closestPoint l1 with
              | none => simp [hl2] at h
              | some l2 =>
                simp only [hl2, Option.some.injEq] at h
                exact Or.inr ⟨cw, w, l1, l2, rfl, hw, hl1, hl2, h.symm⟩

/-- The converse of `updateLabelPos_some` for a visible label with a closest wire. -/
theorem updateLabelPos_of_steps (E : Externals R D) (updateParent : Bool) (st : State R)
    (N : Nat) (sp : QPointF R) (c : Closest R) (cw : Nat) (w : Wire R) (l1 l2 : Label R)
    (hvis : (st.nets N).label.visible = true)
    (hsp : st.labelScenePos E (st.nets N).label = some sp)
    (hfc : WireNet.findClosest E st (E.add (E.textRectCenter (st.nets N).label.text) sp)
      (st.nets N).m_wires (Closest.init E) = some c)
    (hcw : c.closestWire = some cw) (hw : st.wires cw = some w)
    (hl1 : WireNet.updateLabelParent E updateParent
      (E.add (E.textRectCenter (st.nets N).label.text) sp) cw w (st.nets N).label = some l1)
    (hl2 : WireNet.updateLabelConnection E st c.closestPoint l1 = some l2) :
    WireNet.updateLabelPos E updateParent st N = some (st.setLabel N l2) := by
  unfold WireNet.updateLabelPos
  simp only [hvis, Bool.not_true, Bool.false_eq_true, if_false, hsp, hfc, hcw, hw, hl1, hl2]

theorem setLabel_self (st : State R) (N : Nat) : st.setLabel N (st.nets N).label = st := by
  simp [State.setLabel]

/-- The connection step changes the connection point only, and running it again on its
own result changes nothing. -/
theorem updateLabelConnection_some (E : Externals R D) (st : State R)
    (closestPoint : QPointF R) (l1 l2 : Label R)
    (h : WireNet.updateLabelConnection E st closestPoint l1 = some l2) :
    l2.pos = l1.pos ∧ l2.parentItem = l1.parentItem ∧ l2.visible = l1.visible ∧
      l2.text = l1.text ∧ WireNet.updateLabelConnection E st closestPoint l2 = some l2 := by
  unfold WireNet.updateLabelConnection at h ⊢
  cases hp : l1.parentItem with
  | none =>
    simp only [hp, Option.some.injEq] at h
    subst h
    simp [hp]
  | some host =>
    simp only [hp] at h
    cases hh : st.wires host with
    | none => simp [hh] at h
    | some hw =>
      simp only [hh, Option.some.injEq] at h
      subst h
      simp [hp, hh]

theorem labelScenePos_of_eq (E : Externals R D) (st : State R) (l l1 : Label R)
    (hpos : l1.pos = l.pos) (hpar : l1.parentItem = l.parentItem) :
    st.labelScenePos E l1 = st.labelScenePos E l := by
  simp [State.labelScenePos, hpos, hpar]

theorem updateLabelParent_same (E : Externals R D) (updateParent : Bool) (labelPos : QPointF R)
    (closestWire : Nat) (w : Wire R) (label : Label R)
    (h : updateParent = false ∨
      label.parentItem = (if w.isItem then some closestWire else none)) :
    WireNet.updateLabelParent E updateParent labelPos closestWire w label = some label := by
  unfold WireNet.updateLabelParent
  rcases h with h | h
  · simp [h]
  · simp [h]

/-- After the "Update the parent" step the label has kept its visibility and text, and a
second run of the step leaves it alone; without re-hosting the label is unchanged. -/
theorem updateLabelParent_stable (E : Externals R D) (updateParent : Bool)
    (labelPos : QPointF R) (closestWire : Nat) (w : Wire R) (label label1 : Label R)
    (h : WireNet.updateLabelParent E updateParent labelPos closestWire w label = some label1) :
    label1.visible = label.visible ∧ label1.text = label.text ∧
      (updateParent = false ∨
        label1.parentItem = (if w.isItem then some closestWire else none)) ∧
      (label1.parentItem = label.parentItem → label1 = label) := by
  rcases updateLabelParent_some E updateParent _ closestWire w label label1 h with
    ⟨rfl, hc⟩ | ⟨_, hi, hne, rfl⟩
  · exact ⟨rfl, rfl, hc, fun _ => rfl⟩
  · exact ⟨rfl, rfl, Or.inr (by simp [hi]), fun hp => absurd hp.symm hne⟩

/-- C7 (as amended): if a call of `updateLabelPos` returns the state `st1` and has either
left the host of the label unchanged or left the label at the scene position it had before
the call, then a second call with the same `updateParent` returns `st1` again: same host
wire, same position, same connection point.  This holds for every arithmetic. -/
theorem updateLabelPos_idempotent_of_kept (E : Externals R D) (updateParent : Bool)
    (st st1 : State R) (N : Nat)
    (h : WireNet.updateLabelPos E updateParent st N = some st1)
    (hkeep : (st1.nets N).label.parentItem = (st.nets N).label.parentItem ∨
      st1.labelScenePos E (st1.nets N).label = st.labelScenePos E (st.nets N).label) :
    WireNet.updateLabelPos E updateParent st1 N = some st1 := by
  rcases updateLabelPos_some E updateParent st st1 N h with
    ⟨_, rfl⟩ | ⟨hvis, sp, c, hsp, hfc, hrest⟩
  · exact h
  · rcases hrest with ⟨_, rfl⟩ | ⟨cw, w, l1, l2, hcw, hw, hl1, hl2, rfl⟩
    · exact h
    · obtain ⟨hv1, ht1, hc1, hsame⟩ :=
        updateLabelParent_stable E updateParent _ cw w _ l1 hl1
      obtain ⟨hpos, hpar, hv2, ht2, hconn⟩ :=
        updateLabelConnection_some E st c.closestPoint l1 l2 hl2
      have hsp2 : st.labelScenePos E l2 = some sp := by
        rcases hkeep with hk | hk
        · rw [setLabel_label, hpar] at hk
          rw [labelScenePos_of_eq E st l1 l2 hpos hpar, hsame hk]
          exact hsp
        · rw [labelScenePos_congr E st (st.setLabel N l2) rfl, setLabel_label, hsp] at hk
          exact hk
      have h2 := updateLabelPos_of_steps E updateParent (st.setLabel N l2) N sp c cw w l2 l2
        (by simp [hv2, hv1, hvis])
        (by
          rw [labelScenePos_congr E st (st.setLabel N l2) rfl, setLabel_label]
          exact hsp2)
        (by
          rw [findClosest_congr E st (st.setLabel N l2) rfl, setLabel_label,
            setLabel_m_wires, ht2, ht1]
          exact hfc)
        hcw hw
        (by
          rw [setLabel_label]
          exact updateLabelParent_same E updateParent _ cw w l2 (by rw [hpar]; exact hc1))
        (by
          rw [updateLabelConnection_congr E st (st.setLabel N l2) rfl]
          exact hconn)
      rw [setLabel_setLabel] at h2
      exact h2

/-! ### The search for the closest wire -/

theorem scanSegment_found (E : Externals R D) (labelPos : QPointF R) (l : List Nat) (p : Nat)
    (c : Closest R) (segment : line R) (hc : c.ok E l) (hp : p ∈ l) :
    ∃ q, q ∈ l ∧ (WireNet.scanSegment E labelPos p c segment).closestWire = some q := by
  unfold WireNet.scanSegment
  dsimp only
  split
  · exact ⟨p, hp, rfl⟩
  · rename_i hcond
    rcases hc with ⟨_, h0⟩ | hq
    · exfalso
      apply hcond
      simp [h0]
    · exact hq

theorem foldl_scanSegment_found (E : Externals R D) (labelPos : QPointF R) (l : List Nat)
    (p : Nat) (hp : p ∈ l) (segments : List (line R)) :
    ∀ c : Closest R, c.ok E l →
      (List.foldl (WireNet.scanSegment E labelPos p) c segments).ok E l ∧
      ((segments ≠ [] ∨ ∃ q, q ∈ l ∧ c.closestWire = some q) →
        ∃ q, q ∈ l ∧
          (List.foldl (WireNet.scanSegment E labelPos p) c segments).closestWire = some q) := by
  induction segments with
  | nil =>
    intro c hc
    refine ⟨hc, ?_⟩
    rintro (h | h)
    · exact absurd rfl h
    · exact h
  | cons seg rest ih =>
    intro c hc
    have h1 := scanSegment_found E labelPos l p c seg hc hp
    have h2 := ih (WireNet.scanSegment E labelPos p c seg) (Or.inr h1)
    simp only [List.foldl_cons]
    exact ⟨h2.1, fun _ => h2.2 (Or.inr h1)⟩

theorem findClosest_found (E : Externals R D) (st : State R) (labelPos : QPointF R)
    (l : List Nat) (rest : List Nat) :
    ∀ c : Closest R, (∀ p, p ∈ rest → p ∈ l ∧ ∃ w, st.wires p = some w) → c.ok E l →
      ∃ c1, WireNet.findClosest E st labelPos rest c = some c1 ∧ c1.ok E l ∧
        (((∃ q, q ∈ l ∧ c.closestWire = some q) ∨
            ∃ p, p ∈ rest ∧ ∃ w, st.wires p = some w ∧ w.line_segments ≠ []) →
          ∃ q, q ∈ l ∧ c1.closestWire = some q) := by
  induction rest with
  | nil =>
    intro c _ hc
    refine ⟨c, rfl, hc, ?_⟩
    rintro (h | ⟨p, hp, _⟩)
    · exact h
    · simp at hp
  | cons x xs ih =>
    intro c hall hc
    obtain ⟨hxl, w, hw⟩ := hall x (List.mem_cons_self _ _)
    have hf := foldl_scanSegment_found E labelPos l x hxl w.line_segments c hc
    obtain ⟨c1, hc1, hok, hfound⟩ :=
      ih (List.foldl (WireNet.scanSegment E labelPos x) c w.line_segments)
        (fun p hp => hall p (List.mem_cons_of_mem _ hp)) hf.1
    refine ⟨c1, ?_, hok, ?_⟩
    · simp only [WireNet.findClosest, hw]
      exact hc1
    · intro h
      apply hfound
      rcases h with h | ⟨p, hp, w1, hw1, hseg⟩
      · exact Or.inl (hf.2 (Or.inr h))
      · rcases List.mem_cons.1 hp with hpx | hpxs
        · subst hpx
          rw [hw] at hw1
          cases hw1
          exact Or.inl (hf.2 (Or.inl hseg))
        · exact Or.inr ⟨p, hpxs, w1, hw1, hseg⟩

theorem init_ok (E : Externals R D) (l : List Nat) : (Closest.init E).ok E l :=
  Or.inl ⟨rfl, E.isNull_zero⟩

theorem updateLabelParent_item (E : Externals R D) (updateParent : Bool) (labelPos : QPointF R)
    (closestWire : Nat) (w : Wire R) (label : Label R) (hi : w.isItem = true) :
    WireNet.updateLabelParent E updateParent labelPos closestWire w label =
      some (if updateParent && decide (label.parentItem ≠ some closestWire) then
        { label with
          parentItem := some closestWire
          pos := E.sub (E.sub labelPos (E.textRectCenter label.text)) w.scenePos }
        else label) := by
  unfold WireNet.updateLabelParent
  simp only [hi, if_true]
  split <;> rfl

theorem updateLabelConnection_returns (E : Externals R D) (st : State R)
    (closestPoint : QPointF R) (l : Label R)
    (hhost : ∀ host, l.parentItem = some host → ∃ w, st.wires host = some w) :
    ∃ l2, WireNet.updateLabelConnection E st closestPoint l = some l2 := by
  unfold WireNet.updateLabelConnection
  cases hp : l.parentItem with
  | none => exact ⟨_, rfl⟩
  | some host =>
    obtain ⟨w, hw⟩ := hhost host hp
    simp only [hw]
    exact ⟨_, rfl⟩

theorem labelScenePos_returns (E : Externals R D) (st : State R) (l : Label R)
    (hhost : ∀ host, l.parentItem = some host → ∃ w, st.wires host = some w) :
    ∃ sp, st.labelScenePos E l = some sp := by
  unfold State.labelScenePos
  cases hp : l.parentItem with
  | none => exact ⟨_, rfl⟩
  | some host =>
    obtain ⟨w, hw⟩ := hhost host hp
    simp only [hw]
    exact ⟨_, rfl⟩

/-- On a net whose wires all exist and are wire items, and whose label host (if any)
exists, `updateLabelPos` returns. -/
theorem updateLabelPos_returns (E : Externals R D) (updateParent : Bool) (st : State R)
    (N : Nat)
    (hlive : ∀ p, p ∈ (st.nets N).m_wires → ∃ w, st.wires p = some w ∧ w.isItem = true)
    (hhost : ∀ host, (st.nets N).label.parentItem = some host → ∃ w, st.wires host = some w) :
    ∃ st1, WireNet.updateLabelPos E updateParent st N = some st1 := by
  cases hvis : (st.nets N).label.visible with
  | false => exact ⟨st, by simp [WireNet.updateLabelPos, hvis]⟩
  | true =>
    obtain ⟨sp, hsp⟩ := labelScenePos_returns E st _ hhost
    obtain ⟨c, hfc, hok, _⟩ :=
      findClosest_found E st (E.add (E.textRectCenter (st.nets N).label.text) sp)
        (st.nets N).m_wires (st.nets N).m_wires (Closest.init E)
        (fun p hp => ⟨hp, (hlive p hp).imp fun _ h => h.1⟩) (init_ok E _)
    rcases hok with ⟨hnone, _⟩ | ⟨cw, hcwl, hcw⟩
    · refine ⟨st, ?_⟩
      unfold WireNet.updateLabelPos
      simp only [hvis, Bool.not_true, Bool.false_eq_true, if_false, hsp, hfc, hnone]
    · obtain ⟨w, hw, hi⟩ := hlive cw hcwl
      have hl1 := updateLabelParent_item E updateParent
        (E.add (E.textRectCenter (st.nets N).label.text) sp) cw w (st.nets N).label hi
      obtain ⟨l2, hl2⟩ := updateLabelConnection_returns E st c.closestPoint
        (if updateParent && decide ((st.nets N).label.parentItem ≠ some cw) then
          { (st.nets N).label with
            parentItem := some cw
            pos := E.sub (E.sub (E.add (E.textRectCenter (st.nets N).label.text) sp)
              (E.textRectCenter (st.nets N).label.text)) w.scenePos }
          else (st.nets N).label)
        (by
          intro host hh
          split at hh
          · simp only [Option.some.injEq] at hh
            subst hh
            exact ⟨w, hw⟩
          · exact hhost host hh)
      exact ⟨_, updateLabelPos_of_steps E updateParent st N sp c cw w _ l2 hvis hsp hfc hcw hw
        hl1 hl2⟩


/-! ## The claims on `addWire` and on label placement -/

theorem net_addWire_reject (st : State R) (N wire : Nat)
    (h : (net.addWire st N wire).1 = false) : (net.addWire st N wire).2 = st := by
  unfold net.addWire at h ⊢
  cases hw : st.wires wire with
  | none => rfl
  | some w =>
    simp only [hw] at h ⊢
    split
    · rfl
    · rename_i hn
      simp [hn] at h

theorem net_addWire_accept (st : State R) (N wire : Nat)
    (h : (net.addWire st N wire).1 = true) :
    ∃ w, st.wires wire = some w ∧ w.net = none ∧
      (net.addWire st N wire).2 =
        { st with
          wires := Function.update st.wires wire (some { w with net := some N })
          nets := Function.update st.nets N
            { st.nets N with m_wires := (st.nets N).m_wires ++ [wire] } } := by
  unfold net.addWire at h ⊢
  cases hw : st.wires wire with
  | none => simp [hw] at h
  | some w =>
    simp only [hw] at h ⊢
    cases hn : w.net with
    | none => exact ⟨w, rfl, hn, by simp⟩
    | some o => simp [hn] at h

/-- C5: `WireNet::addWire` returns false exactly when `net::addWire` rejects the wire, and
then the whole state is unchanged (wire set, label host, position and connection point
included).  When `net::addWire` accepts, the result is `true` together with the state that
`updateLabelPos(true)` produces from the state with the wire added; and on a net whose
wires and label host exist, for a wire item, that call does return. -/
theorem addWire_reject_or_place (E : Externals R D) (st : State R) (N wire : Nat) :
    ((net.addWire st N wire).1 = false → WireNet.addWire E st N wire = some (false, st)) ∧
      ((net.addWire st N wire).1 = true →
        WireNet.addWire E st N wire =
          (WireNet.updateLabelPos E true (net.addWire st N wire).2 N).map
            (fun s => (true, s))) ∧
      (∀ r, WireNet.addWire E st N wire = some r →
        (r.1 = false ↔ (net.addWire st N wire).1 = false)) ∧
      ((net.addWire st N wire).1 = true →
        (∀ w, st.wires wire = some w → w.isItem = true) →
        (∀ p, p ∈ (st.nets N).m_wires → ∃ w, st.wires p = some w ∧ w.isItem = true) →
        (∀ host, (st.nets N).label.parentItem = some host → ∃ w, st.wires host = some w) →
        ∃ st1, WireNet.addWire E st N wire = some (true, st1) ∧
          WireNet.updateLabelPos E true (net.addWire st N wire).2 N = some st1 ∧
          (st1.nets N).m_wires = (st.nets N).m_wires ++ [wire]) := by
  have hrej : (net.addWire st N wire).1 = false →
      WireNet.addWire E st N wire = some (false, st) := by
    intro h
    simp [WireNet.addWire, h, net_addWire_reject st N wire h]
  have hacc : (net.addWire st N wire).1 = true →
      WireNet.addWire E st N wire =
        (WireNet.updateLabelPos E true (net.addWire st N wire).2 N).map
          (fun s => (true, s)) := by
    intro h
    simp [WireNet.addWire, h]
  refine ⟨hrej, hacc, ?_, ?_⟩
  · intro r hr
    cases hb : (net.addWire st N wire).1 with
    | false =>
      rw [hrej hb] at hr
      cases hr
      simp
    | true =>
      rw [hacc hb] at hr
      cases hu : WireNet.updateLabelPos E true (net.addWire st N wire).2 N with
      | none => simp [hu] at hr
      | some s1 =>
        simp only [hu, Option.map_some', Option.some.injEq] at hr
        subst hr
        simp
  · intro hb hitem hlive hhost
    obtain ⟨w, hw, _, hst⟩ := net_addWire_accept st N wire hb
    have hwires : ∀ p, (∃ v, st.wires p = some v ∧ v.isItem = true) →
        ∃ v, (net.addWire st N wire).2.wires p = some v ∧ v.isItem = true := by
      intro p hp
      rw [hst]
      by_cases hpw : p = wire
      · rw [hpw]
        exact ⟨{ w with net := some N }, by simp, hitem w hw⟩
      · simpa [Function.update_noteq hpw] using hp
    have hmw : ((net.addWire st N wire).2.nets N).m_wires = (st.nets N).m_wires ++ [wire] := by
      rw [hst]; simp
    have hlab : ((net.addWire st N wire).2.nets N).label = (st.nets N).label := by
      rw [hst]; simp
    obtain ⟨st1, hst1⟩ := updateLabelPos_returns E true (net.addWire st N wire).2 N
      (by
        intro p hp
        rw [hmw] at hp
        rcases List.mem_append.1 hp with h | h
        · exact hwires p (hlive p h)
        · simp only [List.mem_singleton] at h
          subst h
          exact hwires p ⟨w, hw, hitem w hw⟩)
      (by
        intro host hh
        rw [hlab] at hh
        obtain ⟨v, hv⟩ := hhost host hh
        rw [hst]
        by_cases hpw : host = wire
        · rw [hpw]; exact ⟨{ w with net := some N }, by simp⟩
        · exact ⟨v, by simpa [Function.update_noteq hpw] using hv⟩)
    refine ⟨st1, by rw [hacc hb, hst1]; rfl, hst1, ?_⟩
    rcases updateLabelPos_some E true _ st1 N hst1 with ⟨_, rfl⟩ | ⟨_, _, _, _, _, hrest⟩
    · exact hmw
    · rcases hrest with ⟨_, rfl⟩ | ⟨_, _, _, l2, _, _, _, _, rfl⟩
      · exact hmw
      · rw [setLabel_m_wires]; exact hmw


/-! ## Facts about the rounding of the examples -/

theorem log_eq_of_bounds (r : ℚ) (e : ℤ) (hlo : (2 : ℚ) ^ e ≤ r) (hhi : r < 2 ^ (e + 1)) :
    Int.log 2 r = e := by
  have hr : 0 < r := lt_of_lt_of_le (by positivity) hlo
  have h1 : e ≤ Int.log 2 r :=
    (Int.zpow_le_iff_le_log (by norm_num) hr).1 (by exact_mod_cast hlo)
  have h2 : Int.log 2 r < e + 1 :=
    (Int.lt_zpow_iff_log_lt (by norm_num) hr).1 (by exact_mod_cast hhi)
  omega

/-- The value of the rounding: for `q` with `2 ^ e ≤ |q| < 2 ^ (e + 1)` the unit in the
last place is `2 ^ (e + 1 - p)`, and the result is `n` units when `n` is the integer
nearest to `q` in units, or one of the two nearest and even. -/
theorem roundNearestEven_eq (p : ℕ) (q : ℚ) (e n : ℤ)
    (hlo : (2 : ℚ) ^ e ≤ |q|) (hhi : |q| < 2 ^ (e + 1))
    (hn : |q / 2 ^ (e + 1 - (p : ℤ)) - n| < 1 / 2 ∨
      (|q / 2 ^ (e + 1 - (p : ℤ)) - n| = 1 / 2 ∧ n % 2 = 0)) :
    roundNearestEven p q = n * 2 ^ (e + 1 - (p : ℤ)) := by
  unfold roundNearestEven
  rw [log_eq_of_bounds |q| e hlo hhi]
  dsimp only
  generalize q / 2 ^ (e + 1 - (p : ℤ)) = m at hn ⊢
  generalize (2 : ℚ) ^ (e + 1 - (p : ℤ)) = ulp
  rcases hn with hn | ⟨hn, hev⟩
  · rw [abs_lt] at hn
    by_cases hge : (n : ℚ) ≤ m
    · have hf : ⌊m⌋ = n := Int.floor_eq_iff.2 ⟨hge, by linarith⟩
      rw [hf, if_pos (by linarith)]
    · have hf : ⌊m⌋ = n - 1 :=
        Int.floor_eq_iff.2 ⟨by push_cast; linarith, by push_cast; linarith⟩
      rw [hf, if_neg (by push_cast; linarith), if_pos (by push_cast; linarith)]
      push_cast; ring
  · rcases (abs_eq (by norm_num : (0 : ℚ) ≤ 1 / 2)).1 hn with h | h
    · have hf : ⌊m⌋ = n := Int.floor_eq_iff.2 ⟨by linarith, by linarith⟩
      rw [hf, if_neg (by linarith), if_neg (by linarith), if_pos hev]
    · have hf : ⌊m⌋ = n - 1 :=
        Int.floor_eq_iff.2 ⟨by push_cast; linarith, by push_cast; linarith⟩
      rw [hf, if_neg (by push_cast; linarith), if_neg (by push_cast; linarith),
        if_neg (by omega)]
      push_cast; ring

theorem roundNearestEven_zero (p : ℕ) : roundNearestEven p 0 = 0 := by
  simp [roundNearestEven]

/-- A number `n * 2 ^ k` whose significand `n` has at most `p` bits is representable: the
rounding returns it unchanged. -/
theorem roundNearestEven_exact (p : ℕ) (q : ℚ) (n k : ℤ) (hq : q = n * 2 ^ k)
    (hn : |n| < 2 ^ p) : roundNearestEven p q = q := by
  by_cases hz : q = 0
  · rw [hz]; exact roundNearestEven_zero p
  · have hq0 : 0 < |q| := abs_pos.2 hz
    have hlo := Int.zpow_log_le_self (b := 2) (by norm_num) hq0
    have hhi := Int.lt_zpow_succ_log_self (b := 2) (by norm_num) |q|
    have hlt : |q| < (2 : ℚ) ^ ((p : ℤ) + k) := by
      rw [hq, abs_mul, abs_of_pos (by positivity : (0 : ℚ) < 2 ^ k), zpow_add₀ (by norm_num)]
      apply mul_lt_mul_of_pos_right _ (by positivity)
      have : ((|n| : ℤ) : ℚ) < ((2 ^ p : ℤ) : ℚ) := by exact_mod_cast hn
      simpa using this
    have he : Int.log 2 |q| < (p : ℤ) + k := by
      by_contra hcon
      push_neg at hcon
      have h2 : (2 : ℚ) ^ ((p : ℤ) + k) ≤ 2 ^ Int.log 2 |q| :=
        zpow_le_zpow_right₀ (by norm_num) hcon
      have hlo2 : (2 : ℚ) ^ Int.log 2 |q| ≤ |q| := by exact_mod_cast hlo
      linarith
    have hlo1 : (2 : ℚ) ^ Int.log 2 |q| ≤ |q| := by exact_mod_cast hlo
    have hhi1 : |q| < (2 : ℚ) ^ (Int.log 2 |q| + 1) := by exact_mod_cast hhi
    generalize Int.log 2 |q| = e at he hlo1 hhi1
    obtain ⟨j, hj⟩ : ∃ j : ℕ, k - (e + 1 - (p : ℤ)) = j :=
      ⟨(k - (e + 1 - (p : ℤ))).toNat, by omega⟩
    have hk : k = (e + 1 - (p : ℤ)) + j := by omega
    have hpos : (2 : ℚ) ^ (e + 1 - (p : ℤ)) ≠ 0 := by positivity
    have hq2 : q = ((n * 2 ^ j : ℤ) : ℚ) * 2 ^ (e + 1 - (p : ℤ)) := by
      rw [hq, hk, zpow_add₀ (by norm_num : (2 : ℚ) ≠ 0), zpow_natCast]
      push_cast
      ring
    have hm : q / 2 ^ (e + 1 - (p : ℤ)) = ((n * 2 ^ j : ℤ) : ℚ) := by
      rw [div_eq_iff hpos]
      exact hq2
    have h := roundNearestEven_eq p q e (n * 2 ^ j) hlo1 hhi1 (Or.inl (by rw [hm]; simp))
    rw [h]
    exact hq2.symm

theorem roundDouble_exact (q : ℚ) (n k : ℤ) (hq : q = n * 2 ^ k) (hn : |n| < 2 ^ 53) :
    roundDouble q = q := roundNearestEven_exact 53 q n k hq hn

theorem roundFloat_exact (q : ℚ) (n k : ℤ) (hq : q = n * 2 ^ k) (hn : |n| < 2 ^ 24) :
    roundFloat q = q := roundNearestEven_exact 24 q n k hq hn


/-! ## The examples in rounded arithmetic -/

theorem roundDouble_int (n : ℤ) (hn : |n| < 2 ^ 53) : roundDouble (n : ℚ) = n :=
  roundDouble_exact _ n 0 (by simp) hn

theorem roundFloat_int (n : ℤ) (hn : |n| < 2 ^ 24) : roundFloat (n : ℚ) = n :=
  roundFloat_exact _ n 0 (by simp) hn

theorem roundDouble_zero : roundDouble 0 = 0 := roundNearestEven_zero 53

theorem roundFloat_zero : roundFloat 0 = 0 := roundNearestEven_zero 24

theorem roundDouble_one : roundDouble 1 = 1 := by
  simpa using roundDouble_int 1 (by norm_num)

theorem roundFloat_one : roundFloat 1 = 1 := by
  simpa using roundFloat_int 1 (by norm_num)

theorem roundDouble_ten : roundDouble 10 = 10 := by
  simpa using roundDouble_int 10 (by norm_num)

theorem roundDouble_neg_ten : roundDouble (-10) = -10 := by
  simpa using roundDouble_int (-10) (by norm_num)

theorem roundDouble_neg_nine : roundDouble (-9) = -9 := by
  simpa using roundDouble_int (-9) (by norm_num)

theorem roundFloat_neg_ten : roundFloat (-10) = -10 := by
  simpa using roundFloat_int (-10) (by norm_num)

theorem roundFloat_neg_nine : roundFloat (-9) = -9 := by
  simpa using roundFloat_int (-9) (by norm_num)

theorem roundFloat_hundred : roundFloat 100 = 100 := by
  simpa using roundFloat_int 100 (by norm_num)

theorem roundFloat_eighty_one : roundFloat 81 = 81 := by
  simpa using roundFloat_int 81 (by norm_num)

theorem roundFloat_181 : roundFloat 181 = 181 := by
  simpa using roundFloat_int 181 (by norm_num)


theorem roundDouble_eq (q r : ℚ) (e n : ℤ)
    (hlo : (2 : ℚ) ^ e ≤ |q|) (hhi : |q| < 2 ^ (e + 1))
    (hn : |q / 2 ^ (e + 1 - 53) - n| < 1 / 2 ∨
      (|q / 2 ^ (e + 1 - 53) - n| = 1 / 2 ∧ n % 2 = 0))
    (hr : r = n * 2 ^ (e + 1 - 53)) : roundDouble q = r := by
  rw [hr]
  exact roundNearestEven_eq 53 q e n hlo hhi hn

theorem roundFloat_eq (q r : ℚ) (e n : ℤ)
    (hlo : (2 : ℚ) ^ e ≤ |q|) (hhi : |q| < 2 ^ (e + 1))
    (hn : |q / 2 ^ (e + 1 - 24) - n| < 1 / 2 ∨
      (|q / 2 ^ (e + 1 - 24) - n| = 1 / 2 ∧ n % 2 = 0))
    (hr : r = n * 2 ^ (e + 1 - 24)) : roundFloat q = r := by
  rw [hr]
  exact roundNearestEven_eq 24 q e n hlo hhi hn

theorem exampleExternals_sub (a b c d : ℚ) :
    exampleExternals.sub (a, b) (c, d) = (roundDouble (a - c), roundDouble (b - d)) := rfl

theorem exampleExternals_add (a b c d : ℚ) :
    exampleExternals.add (a, b) (c, d) = (roundDouble (a + c), roundDouble (b + d)) := rfl

theorem exampleExternals_lengthSquared (a b : ℚ) :
    exampleExternals.lengthSquared (a, b) =
      roundFloat (roundFloat (roundFloat a * roundFloat a)
        + roundFloat (roundFloat b * roundFloat b)) := rfl

/-- The squared length of a vector along the `x` axis whose `float` coordinate is `f` and
whose squared coordinate rounds to `s`. -/
theorem lengthSquared_on_axis (a f s : ℚ) (hf : roundFloat a = f)
    (hs : roundFloat (f * f) = s) (hss : roundFloat s = s) :
    exampleExternals.lengthSquared (a, 0) = s := by
  rw [exampleExternals_lengthSquared, hf, hs, roundFloat_zero, mul_zero, roundFloat_zero,
    add_zero, hss]

theorem drift_sub_A : exampleExternals.sub (driftX, 0) (driftA, 0)
    = (-(1 / 2 + 1 / 2 ^ 25), 0) := by
  rw [exampleExternals_sub, sub_zero, roundDouble_zero]
  have h : driftX - driftA = -(1 / 2 + 1 / 2 ^ 25) := by norm_num [driftX, driftA]
  rw [h, roundDouble_exact _ (-(2 ^ 24 + 1)) (-25) (by norm_num) (by norm_num)]

theorem drift_sub_B : exampleExternals.sub (driftX, 0) (driftB, 0) = (1 / 2, 0) := by
  rw [exampleExternals_sub, sub_zero, roundDouble_zero]
  have h : driftX - driftB = 1 / 2 := by norm_num [driftX, driftB]
  rw [h, roundDouble_exact _ 1 (-1) (by norm_num) (by norm_num)]

theorem roundFloat_quarter : roundFloat (1 / 4) = 1 / 4 :=
  roundFloat_exact _ 1 (-2) (by norm_num) (by norm_num)

theorem drift_length_A :
    exampleExternals.lengthSquared (-(1 / 2 + 1 / 2 ^ 25), 0) = 1 / 4 := by
  apply lengthSquared_on_axis _ (-(1 / 2)) (1 / 4)
  · exact roundFloat_eq _ _ (-1) (-8388608) (by norm_num [abs_of_neg, abs_of_pos])
      (by norm_num [abs_of_neg, abs_of_pos]) (by right; norm_num [abs_of_neg, abs_of_pos]) (by norm_num)
  · rw [show (-(1 / 2 : ℚ)) * -(1 / 2) = 1 / 4 by norm_num]
    exact roundFloat_quarter
  · exact roundFloat_quarter

theorem drift_length_B : exampleExternals.lengthSquared (1 / 2, 0) = 1 / 4 := by
  apply lengthSquared_on_axis _ (1 / 2) (1 / 4)
  · exact roundFloat_exact _ 1 (-1) (by norm_num) (by norm_num)
  · rw [show ((1 : ℚ) / 2) * (1 / 2) = 1 / 4 by norm_num]
    exact roundFloat_quarter
  · exact roundFloat_quarter

theorem drift_offset :
    exampleExternals.sub (exampleExternals.sub (driftX, 0) (0, 0)) (4, 0) = (-3, 0) := by
  have h1 : roundDouble driftX = driftX :=
    roundDouble_exact _ (2 ^ 52 + 1) (-52) (by norm_num [driftX]) (by norm_num)
  have hin : exampleExternals.sub (driftX, 0) (0, 0) = (driftX, 0) := by
    rw [exampleExternals_sub, sub_zero, sub_zero, roundDouble_zero, h1]
  rw [hin, exampleExternals_sub, sub_zero, roundDouble_zero]
  have h2 : roundDouble (driftX - 4) = -3 :=
    roundDouble_eq _ _ 1 (-6755399441055744) (by norm_num [driftX, abs_of_neg, abs_of_pos])
      (by norm_num [driftX, abs_of_neg, abs_of_pos]) (by right; norm_num [driftX, abs_of_neg, abs_of_pos])
      (by norm_num)
  rw [h2]

theorem drift_scene_after : exampleExternals.add (4, 0) (-3, 0) = (1, 0) := by
  rw [exampleExternals_add, add_zero, roundDouble_zero]
  rw [show (4 : ℚ) + -3 = 1 by norm_num, roundDouble_one]

theorem drift_add_after : exampleExternals.add (0, 0) (1, 0) = (1, 0) := by
  rw [exampleExternals_add, add_zero, zero_add, roundDouble_zero, roundDouble_one]

theorem drift_sub_A_after : exampleExternals.sub (1, 0) (driftA, 0)
    = (-(1 / 2 + 1 / 2 ^ 25 + 1 / 2 ^ 52), 0) := by
  rw [exampleExternals_sub, sub_zero, roundDouble_zero]
  have h : 1 - driftA = -(1 / 2 + 1 / 2 ^ 25 + 1 / 2 ^ 52) := by norm_num [driftA]
  rw [h, roundDouble_exact _ (-(2 ^ 51 + 2 ^ 27 + 1)) (-52) (by norm_num) (by norm_num)]

theorem drift_sub_B_after : exampleExternals.sub (1, 0) (driftB, 0)
    = (1 / 2 - 1 / 2 ^ 52, 0) := by
  rw [exampleExternals_sub, sub_zero, roundDouble_zero]
  have h : 1 - driftB = 1 / 2 - 1 / 2 ^ 52 := by norm_num [driftB]
  rw [h, roundDouble_exact _ (2 ^ 51 - 1) (-52) (by norm_num) (by norm_num)]

theorem drift_length_A_after :
    exampleExternals.lengthSquared (-(1 / 2 + 1 / 2 ^ 25 + 1 / 2 ^ 52), 0)
      = 1 / 4 + 1 / 2 ^ 24 := by
  apply lengthSquared_on_axis _ (-(1 / 2 + 1 / 2 ^ 24)) (1 / 4 + 1 / 2 ^ 24)
  · exact roundFloat_eq _ _ (-1) (-8388609) (by norm_num [abs_of_neg, abs_of_pos])
      (by norm_num [abs_of_neg, abs_of_pos]) (by left; norm_num [abs_of_neg, abs_of_pos]) (by norm_num)
  · exact roundFloat_eq _ _ (-2) 8388610 (by norm_num [abs_of_neg, abs_of_pos])
      (by norm_num [abs_of_neg, abs_of_pos]) (by left; norm_num [abs_of_neg, abs_of_pos]) (by norm_num)
  · exact roundFloat_exact _ (2 ^ 22 + 1) (-24) (by norm_num) (by norm_num)

theorem drift_length_B_after :
    exampleExternals.lengthSquared (1 / 2 - 1 / 2 ^ 52, 0) = 1 / 4 := by
  apply lengthSquared_on_axis _ (1 / 2) (1 / 4)
  · exact roundFloat_eq _ _ (-2) 16777216 (by norm_num [abs_of_neg, abs_of_pos])
      (by norm_num [abs_of_neg, abs_of_pos]) (by left; norm_num [abs_of_neg, abs_of_pos]) (by norm_num)
  · rw [show ((1 : ℚ) / 2) * (1 / 2) = 1 / 4 by norm_num]
    exact roundFloat_quarter
  · exact roundFloat_quarter

theorem drift_rehost_after :
    exampleExternals.sub (exampleExternals.sub (1, 0) (0, 0)) (0, 0) = (1, 0) := by
  have hin : exampleExternals.sub (1, 0) (0, 0) = (1, 0) := by
    rw [exampleExternals_sub, sub_zero, sub_zero, roundDouble_zero, roundDouble_one]
  rw [hin, hin]

theorem drift_connection_after :
    exampleExternals.sub (driftB, 0) (0, 0) = (driftB, 0) := by
  rw [exampleExternals_sub, sub_zero, sub_zero, roundDouble_zero,
    roundDouble_exact _ (2 ^ 51 + 1) (-52) (by norm_num [driftB]) (by norm_num)]

theorem drift_add_label :
    exampleExternals.add (0, 0) (driftX, 0) = (driftX, 0) := by
  have h : roundDouble (0 + driftX) = driftX := by
    rw [zero_add]
    exact roundDouble_exact _ (2 ^ 52 + 1) (-52) (by norm_num [driftX]) (by norm_num)
  simp only [exampleExternals, h, add_zero, roundDouble_zero]

theorem drift_proj_A (x : ℚ) (hx : x ≤ driftA) :
    exampleExternals.pointOnLineClosestToPoint (driftA, 0) (3, 0) (x, 0) = (driftA, 0) := by
  have h3 : driftA < 3 := by norm_num [driftA]
  simp only [exampleExternals, Utils.pointOnLineClosestToPoint]
  rw [if_pos]
  simp only [sub_self, mul_zero, add_zero]
  apply div_nonpos_of_nonpos_of_nonneg
  · nlinarith
  · nlinarith

theorem drift_proj_B (x : ℚ) (hx : driftB ≤ x) :
    exampleExternals.pointOnLineClosestToPoint (1 / 4, 0) (driftB, 0) (x, 0) = (driftB, 0) := by
  have h3 : (1 : ℚ) / 4 < driftB := by norm_num [driftB]
  simp only [exampleExternals, Utils.pointOnLineClosestToPoint]
  have hperc : ¬ ((driftB - 1 / 4) * (x - 1 / 4) + (0 - 0) * (0 - 0)) /
      ((driftB - 1 / 4) * (driftB - 1 / 4) + (0 - 0) * (0 - 0)) ≤ 0 := by
    simp only [sub_self, mul_zero, add_zero, not_le]
    apply div_pos <;> nlinarith
  have hperc1 : ((driftB - 1 / 4) * (x - 1 / 4) + (0 - 0) * (0 - 0)) /
      ((driftB - 1 / 4) * (driftB - 1 / 4) + (0 - 0) * (0 - 0)) ≥ 1 := by
    simp only [sub_self, mul_zero, add_zero, ge_iff_le]
    rw [one_le_div (by nlinarith)]
    nlinarith
  rw [if_neg hperc, if_pos hperc1]


theorem drift_isNull_A : exampleExternals.isNull (driftA, 0) = false := by
  simp [exampleExternals, driftA]
  norm_num

theorem drift_greater_first : exampleExternals.greater (1 / 4) (1 / 4) = false := by
  simp [exampleExternals]

theorem drift_greater_after :
    exampleExternals.greater (1 / 4 + 1 / 2 ^ 24) (1 / 4) = true := by
  simp [exampleExternals]

theorem driftState_findClosest :
    WireNet.findClosest exampleExternals driftState (driftX, 0) [0, 1]
      (Closest.init exampleExternals)
      = some { closestPoint := (driftA, 0), closestWire := some 0 } := by
  have hw0 : driftState.wires 0 = some
      { isItem := true, pos := (4, 0), scenePos := (4, 0),
        line_segments := [{ p1 := (driftA, 0), p2 := (3, 0) }], highlighted := false,
        net := some 0 } := rfl
  have hw1 : driftState.wires 1 = some
      { isItem := true, pos := (0, 0), scenePos := (0, 0),
        line_segments := [{ p1 := (1 / 4, 0), p2 := (driftB, 0) }],
        highlighted := false, net := some 0 } := rfl
  have hA := drift_proj_A driftX (by norm_num [driftX, driftA])
  have hB := drift_proj_B driftX (by norm_num [driftX, driftB])
  simp only [WireNet.findClosest, hw0, hw1, List.foldl, WireNet.scanSegment, Closest.init,
    exampleExternals.isNull_zero, Bool.true_or, if_true, hA, hB, drift_isNull_A,
    Bool.false_or, drift_sub_A, drift_sub_B, drift_length_A, drift_length_B,
    drift_greater_first, Bool.false_eq_true, if_false]

theorem driftPlaced_findClosest :
    WireNet.findClosest exampleExternals driftPlaced (1, 0) [0, 1]
      (Closest.init exampleExternals)
      = some { closestPoint := (driftB, 0), closestWire := some 1 } := by
  have hw0 : driftPlaced.wires 0 = some
      { isItem := true, pos := (4, 0), scenePos := (4, 0),
        line_segments := [{ p1 := (driftA, 0), p2 := (3, 0) }], highlighted := false,
        net := some 0 } := rfl
  have hw1 : driftPlaced.wires 1 = some
      { isItem := true, pos := (0, 0), scenePos := (0, 0),
        line_segments := [{ p1 := (1 / 4, 0), p2 := (driftB, 0) }],
        highlighted := false, net := some 0 } := rfl
  have hA := drift_proj_A 1 (by norm_num [driftA])
  have hB := drift_proj_B 1 (by norm_num [driftB])
  simp only [WireNet.findClosest, hw0, hw1, List.foldl, WireNet.scanSegment, Closest.init,
    exampleExternals.isNull_zero, Bool.true_or, if_true, hA, hB, drift_isNull_A,
    Bool.false_or, drift_sub_A_after, drift_sub_B_after, drift_length_A_after,
    drift_length_B_after, drift_greater_after]

theorem driftState_placed :
    WireNet.updateLabelPos exampleExternals true driftState 0 = some driftPlaced := by
  apply updateLabelPos_of_steps exampleExternals true driftState 0 (driftX, 0)
    { closestPoint := (driftA, 0), closestWire := some 0 } 0
    { isItem := true, pos := (4, 0), scenePos := (4, 0),
      line_segments := [{ p1 := (driftA, 0), p2 := (3, 0) }], highlighted := false,
      net := some 0 }
    { pos := (-3, 0), parentItem := some 0, visible := true, text := ['A'],
      highlighted := false, connectionPoint := (0, 0) }
  · rfl
  · rfl
  · show WireNet.findClosest exampleExternals driftState
      (exampleExternals.add (0, 0) (driftX, 0)) [0, 1] (Closest.init exampleExternals) = _
    rw [drift_add_label]
    exact driftState_findClosest
  · rfl
  · rfl
  · show WireNet.updateLabelParent exampleExternals true
      (exampleExternals.add (0, 0) (driftX, 0)) 0 _ _ = _
    rw [drift_add_label, updateLabelParent_item _ _ _ _ _ _ rfl]
    show some ({
      pos := exampleExternals.sub (exampleExternals.sub (driftX, 0) (0, 0)) (4, 0)
      parentItem := some 0, visible := true, text := ['A'], highlighted := false,
      connectionPoint := (0, 0) } : Label ℚ) = _
    rw [drift_offset]
  · rfl

theorem driftPlaced_moved :
    WireNet.updateLabelPos exampleExternals true driftPlaced 0 = some driftMoved := by
  have h := updateLabelPos_of_steps exampleExternals true driftPlaced 0 (1, 0)
    { closestPoint := (driftB, 0), closestWire := some 1 } 1
    { isItem := true, pos := (0, 0), scenePos := (0, 0),
      line_segments := [{ p1 := (1 / 4, 0), p2 := (driftB, 0) }],
      highlighted := false, net := some 0 }
    { pos := (1, 0), parentItem := some 1, visible := true, text := ['A'],
      highlighted := false,
      connectionPoint := exampleExternals.sub (driftA, 0) (4, 0) }
    { pos := (1, 0), parentItem := some 1, visible := true, text := ['A'],
      highlighted := false, connectionPoint := (driftB, 0) }
    rfl
    (by
      show some (exampleExternals.add (4, 0) (-3, 0)) = _
      rw [drift_scene_after])
    (by
      show WireNet.findClosest exampleExternals driftPlaced
        (exampleExternals.add (0, 0) (1, 0)) [0, 1] (Closest.init exampleExternals) = _
      rw [drift_add_after]
      exact driftPlaced_findClosest)
    rfl rfl
    (by
      show WireNet.updateLabelParent exampleExternals true
        (exampleExternals.add (0, 0) (1, 0)) 1 _ _ = _
      rw [drift_add_after, updateLabelParent_item _ _ _ _ _ _ rfl]
      show some ({
        pos := exampleExternals.sub (exampleExternals.sub (1, 0) (0, 0)) (0, 0)
        parentItem := some 1, visible := true, text := ['A'], highlighted := false,
        connectionPoint := exampleExternals.sub (driftA, 0) (4, 0) } : Label ℚ) = _
      rw [drift_rehost_after])
    (by
      show some ({
        pos := (1, 0), parentItem := some 1, visible := true, text := ['A'],
        highlighted := false,
        connectionPoint := exampleExternals.sub (driftB, 0) (0, 0) } : Label ℚ) = _
      rw [drift_connection_after])
  rw [h]
  unfold driftPlaced driftMoved
  rw [setLabel_setLabel]

/-! ## The claims on the examples -/

/-- Witness for C5: in the scenario of the spec, wire `0` is refused by net `0` (it is
owned already) and wire `2` is accepted. -/
theorem addWire_reject_or_place_witness :
    (net.addWire clkState 0 0).1 = false ∧
      WireNet.addWire exampleExternals clkState 0 0 = some (false, clkState) ∧
      (net.addWire clkState 0 2).1 = true ∧
      ∃ st1, WireNet.addWire exampleExternals clkState 0 2 = some (true, st1) ∧
        (st1.nets 0).m_wires = [0, 2] := by
  refine ⟨by decide, (addWire_reject_or_place exampleExternals clkState 0 0).1 (by decide),
    by decide, ?_⟩
  obtain ⟨st1, h1, _, h3⟩ :=
    (addWire_reject_or_place exampleExternals clkState 0 2).2.2.2 (by decide)
      (by
        intro w hw
        simp only [clkState] at hw
        cases hw
        rfl)
      (by
        intro p hp
        have hp0 : p = 0 := by simpa [clkState, clkNet] using hp
        subst hp0
        exact ⟨_, rfl, rfl⟩)
      (by
        intro host hh
        have hp0 : host = 0 := by simpa [clkState, clkNet] using hh.symm
        subst hp0
        exact ⟨_, rfl⟩)
  exact ⟨st1, h1, h3⟩

theorem originState_findClosest :
    WireNet.findClosest exampleExternals originState (0, 1) [0, 1]
      (Closest.init exampleExternals)
      = some { closestPoint := (10, 10), closestWire := some 1 } := by
  simp [WireNet.findClosest, originState, WireNet.scanSegment, exampleExternals,
    Utils.pointOnLineClosestToPoint, Closest.init]
  norm_num

theorem originState_placed :
    WireNet.updateLabelPos exampleExternals true originState 0 = some originPlaced := by
  apply updateLabelPos_of_steps exampleExternals true originState 0 (0, 1)
    { closestPoint := (10, 10), closestWire := some 1 } 1
    { isItem := true, pos := (0, 0), scenePos := (0, 0),
      line_segments := [{ p1 := (10, 10), p2 := (20, 10) }], highlighted := false,
      net := some 0 }
    { pos := (0, 1), parentItem := some 1, visible := true, text := ['A'],
      highlighted := false, connectionPoint := (0, 0) }
  · rfl
  · rfl
  · have h := originState_findClosest
    have ha : exampleExternals.add (exampleExternals.textRectCenter ['A']) (0, 1) = (0, 1) := by
      simp [exampleExternals, roundDouble_zero, roundDouble_one]
    simpa [originState, ha] using h
  · rfl
  · rfl
  · simp [WireNet.updateLabelParent, originState, exampleExternals, roundDouble_zero,
      roundDouble_one]
  · simp [WireNet.updateLabelConnection, originState, exampleExternals, roundDouble_ten]

/-- C6 (refuted on the code): in `originState` the anchor is `(0, 1)`.  Its projection onto
the segment of wire `0` is the origin, at squared distance `1`; its projection onto the
segment of wire `1` is `(10, 10)`, at squared distance `181` (both as the program computes
them, in rounded arithmetic).  The search returns `(10, 10)` and wire `1`, and
`updateLabelPos(true)` hosts the label on wire `1`: because the origin is also the
"nothing found yet" value of `closestPoint`, the closer point is overwritten by the next
segment. -/
theorem findClosest_origin_not_closest :
    Utils.pointOnLineClosestToPoint (-5, 0) (5, 0) (0, 1) = (0, 0) ∧
      Utils.pointOnLineClosestToPoint (10, 10) (20, 10) (0, 1) = (10, 10) ∧
      exampleExternals.lengthSquared (exampleExternals.sub (0, 1) (0, 0)) = 1 ∧
      exampleExternals.lengthSquared (exampleExternals.sub (0, 1) (10, 10)) = 181 ∧
      WireNet.findClosest exampleExternals originState (0, 1) (originState.nets 0).m_wires
        (Closest.init exampleExternals)
        = some { closestPoint := (10, 10), closestWire := some 1 } ∧
      WireNet.updateLabelPos exampleExternals true originState 0 = some originPlaced ∧
      (originPlaced.nets 0).label.parentItem = some 1 ∧
      (originPlaced.nets 0).label.connectionPoint = (10, 10) := by
  refine ⟨?_, ?_, ?_, ?_, originState_findClosest, originState_placed, ?_, ?_⟩
  · simp [Utils.pointOnLineClosestToPoint]
    norm_num
  · simp [Utils.pointOnLineClosestToPoint]
    norm_num
  · simp [exampleExternals, roundDouble_zero, roundDouble_one, roundFloat_zero,
      roundFloat_one]
  · simp [exampleExternals]
    norm_num [roundDouble_neg_ten, roundDouble_neg_nine, roundFloat_neg_ten,
      roundFloat_neg_nine, roundFloat_hundred, roundFloat_eighty_one, roundFloat_181]
  · simp [originPlaced]
  · simp [originPlaced]

/-- C7 (refuted on the code): in `driftState` the label is at `x = 1 + 2^-52` and has no
host.  The first `updateLabelPos(true)` finds both wires at the same `float` squared
distance `1/4`, keeps wire `0`, and hosts the label there: the stored offset
`(1 + 2^-52) - 4` rounds to `-3`, so the label now sits at `4 + (-3) = 1` in the scene.
The second call therefore measures from `x = 1`, finds wire `1` strictly closer
(`1/4` against `1/4 + 2^-24`), and moves the label to wire `1`: host, position and
connection point after the second call differ from those after the first. -/
theorem updateLabelPos_not_idempotent :
    WireNet.updateLabelPos exampleExternals true driftState 0 = some driftPlaced ∧
      WireNet.updateLabelPos exampleExternals true driftPlaced 0 = some driftMoved ∧
      (driftPlaced.nets 0).label.parentItem = some 0 ∧
      (driftMoved.nets 0).label.parentItem = some 1 ∧
      (driftPlaced.nets 0).label.pos = (-3, 0) ∧
      (driftMoved.nets 0).label.pos = (1, 0) ∧
      WireNet.updateLabelPos exampleExternals true driftPlaced 0 ≠ some driftPlaced := by
  refine ⟨driftState_placed, driftPlaced_moved, ?_, ?_, ?_, ?_, ?_⟩
  · simp [driftPlaced]
  · simp [driftMoved]
  · simp [driftPlaced]
  · simp [driftMoved]
  · rw [driftPlaced_moved]
    intro h
    have h1 : (driftMoved.nets 0).label.parentItem = (driftPlaced.nets 0).label.parentItem := by
      rw [Option.some.inj h]
    simp [driftMoved, driftPlaced] at h1

theorem originPlaced_scenePos :
    originPlaced.labelScenePos exampleExternals (originPlaced.nets 0).label
      = originState.labelScenePos exampleExternals (originState.nets 0).label := by
  show some (exampleExternals.add (0, 0) (0, 1)) = some (0, 1)
  rw [exampleExternals_add, add_zero, zero_add, roundDouble_zero, roundDouble_one]

/-- Witness for C7: the first call on `originState` re-hosts the label and leaves it at its
scene position `(0, 1)`; it returns `originPlaced`, and so does a second call. -/
theorem updateLabelPos_idempotent_of_kept_witness :
    WireNet.updateLabelPos exampleExternals true originState 0 = some originPlaced ∧
      originPlaced.labelScenePos exampleExternals (originPlaced.nets 0).label
        = originState.labelScenePos exampleExternals (originState.nets 0).label ∧
      WireNet.updateLabelPos exampleExternals true originPlaced 0 = some originPlaced :=
  ⟨originState_placed, originPlaced_scenePos,
    updateLabelPos_idempotent_of_kept exampleExternals true originState originPlaced 0
      originState_placed (Or.inr originPlaced_scenePos)⟩

/-- C9 (refuted on the code): the net at `0` of `freshState` has no scene, an empty name,
no wire and a hidden label.  In a build without assertions `from_container` returns on
`xContainer` a state in which the net is named "X", its label shows "X" and is visible and
hosted on the new wire `0`, and the wire is in the wire set: `set_name` and `addWire` have
run before the missing scene is noticed.  The wire is not added to the scene and does not
outlive the call, so the wire set and the label are left with a reference to a destroyed
wire.  With assertions the program ends at the first line. -/
theorem from_container_mutates_without_scene :
    (freshState.nets 0).scene = false ∧ (freshState.nets 0).m_name = [] ∧
      (freshState.nets 0).m_wires = [] ∧ (freshState.nets 0).label.visible = false ∧
      (∃ st1, WireNet.from_container exampleExternals false freshState 0 xContainer = some st1 ∧
        (st1.nets 0).m_name = ['X'] ∧ (st1.nets 0).m_wires = [0] ∧
        (st1.nets 0).label.text = ['X'] ∧ (st1.nets 0).label.visible = true ∧
        (st1.nets 0).label.parentItem = some 0 ∧ st1.sceneItems = [] ∧
        st1.wires 0 = none) ∧
      WireNet.from_container exampleExternals true freshState 0 xContainer = none := by
  refine ⟨rfl, rfl, rfl, rfl, ?_, rfl⟩
  simp [WireNet.from_container, WireNet.set_name, net.set_name, WireNet.updateLabelPos,
    State.labelScenePos, WireNet.findClosest, State.setLabel, Label.setText, Label.setVisible,
    freshState, xContainer, WireNet.ctor, exampleExternals, WireNet.from_container_wires,
    WireNet.addWire, net.addWire, clkWire, WireNet.scanSegment, Closest.init,
    WireNet.updateLabelParent, WireNet.updateLabelConnection, Utils.pointOnLineClosestToPoint]

/-! ## The claim on the label of a net made by the constructor -/

/-- Without wires and without host, `updateLabelPos` returns and changes nothing. -/
theorem updateLabelPos_no_wires (E : Externals R D) (updateParent : Bool) (st : State R) (N : Nat)
    (hw : (st.nets N).m_wires = []) (hp : (st.nets N).label.parentItem = none) :
    WireNet.updateLabelPos E updateParent st N = some st := by
  unfold WireNet.updateLabelPos
  cases hvis : (st.nets N).label.visible with
  | false => simp [hvis]
  | true => simp [hvis, State.labelScenePos, hp, hw, WireNet.findClosest, Closest.init]

theorem set_name_no_wires (E : Externals R D) (st : State R) (self : Nat) (name : QString)
    (hw : (st.nets self).m_wires = []) (hp : (st.nets self).label.parentItem = none) :
    WireNet.set_name E st self name =
      some (((net.set_name st self name).setLabel self
        { (st.nets self).label with text := name, visible := !name.isEmpty })) := by
  unfold WireNet.set_name
  rw [updateLabelPos_no_wires]
  · simp [net.set_name, State.setLabel, Label.setText, Label.setVisible]
  · simp [net.set_name, State.setLabel, hw]
  · simp [net.set_name, State.setLabel, Label.setText, Label.setVisible, hp]

theorem toggleLabel_no_wires (E : Externals R D) (st : State R) (self : Nat)
    (hw : (st.nets self).m_wires = []) (hp : (st.nets self).label.parentItem = none) :
    WireNet.toggleLabel E st self =
      some (st.setLabel self
        { (st.nets self).label with
          visible := !(st.nets self).label.text.isEmpty && !(st.nets self).label.visible }) := by
  unfold WireNet.toggleLabel
  rw [updateLabelPos_no_wires]
  · simp [Label.setVisible]
  · simp [hw]
  · simp [Label.setVisible, hp]

theorem reachable_inv (E : Externals R D) (self : Nat) (st : State R) (h : Reachable E self st) :
    LabelInv st self := by
  induction h with
  | ctor st0 => simp [LabelInv, State.construct, WireNet.ctor]
  | set_name st0 st1 name _ hstep ih =>
    obtain ⟨_, _, hw, hp⟩ := ih
    rw [set_name_no_wires E st0 self name hw hp] at hstep
    cases hstep
    refine ⟨?_, ?_, ?_, ?_⟩
    · simp [net.set_name, State.setLabel]
    · cases name <;> simp [net.set_name, State.setLabel]
    · simp [net.set_name, State.setLabel, hw]
    · simp [hp]
  | toggleLabel st0 st1 _ hstep ih =>
    obtain ⟨ht, hv, hw, hp⟩ := ih
    rw [toggleLabel_no_wires E st0 self hw hp] at hstep
    cases hstep
    refine ⟨?_, ?_, ?_, ?_⟩
    · simpa [State.setLabel] using ht
    · intro hvis
      have hvis1 : (st0.nets self).label.text.isEmpty = false := by
        simp only [setLabel_label, Bool.and_eq_true, Bool.not_eq_true'] at hvis
        exact hvis.1
      rw [ht] at hvis1
      have hname : (st0.nets self).m_name ≠ [] := by
        intro h0
        rw [h0] at hvis1
        simp at hvis1
      simpa [State.setLabel] using hname
    · simpa [State.setLabel] using hw
    · simp [hp]

/-- C10: in every state reachable from the constructor by `set_name` and `toggleLabel`
calls, the label text is the name of the net and the label is visible only if the name is
non-empty; `set_name(name)` returns and makes the label visible iff `name` is non-empty
(text and name become `name`); `toggleLabel` returns, leaves the label of an unnamed net
hidden and flips the visibility on a named net, and a second `toggleLabel` leads back to
the state before the first. -/
theorem label_visibility_invariant (E : Externals R D) (self : Nat) (st : State R)
    (h : Reachable E self st) :
    (st.nets self).label.text = (st.nets self).m_name ∧
      ((st.nets self).label.visible = true → (st.nets self).m_name ≠ []) ∧
      (∀ name, ∃ st1, WireNet.set_name E st self name = some st1 ∧
        ((st1.nets self).label.visible = true ↔ name ≠ []) ∧
        (st1.nets self).m_name = name ∧ (st1.nets self).label.text = name) ∧
      (∃ st1, WireNet.toggleLabel E st self = some st1 ∧
        ((st.nets self).m_name = [] → (st1.nets self).label.visible = false) ∧
        ((st.nets self).m_name ≠ [] →
          (st1.nets self).label.visible = !(st.nets self).label.visible) ∧
        WireNet.toggleLabel E st1 self = some st) := by
  obtain ⟨ht, hv, hw, hp⟩ := reachable_inv E self st h
  refine ⟨ht, hv, ?_, ?_⟩
  · intro name
    refine ⟨_, set_name_no_wires E st self name hw hp, ?_, ?_, ?_⟩
    · cases name <;> simp
    · simp [net.set_name, State.setLabel]
    · simp
  · refine ⟨_, toggleLabel_no_wires E st self hw hp, ?_, ?_, ?_⟩
    · intro h0
      simp [ht, h0]
    · intro h0
      have hne : (st.nets self).m_name.isEmpty = false := by
        cases hn : (st.nets self).m_name with
        | nil => exact absurd hn h0
        | cons a as => rfl
      simp [ht, hne]
    · rw [toggleLabel_no_wires E _ self (by simpa using hw) (by simpa using hp)]
      simp only [setLabel_label, setLabel_setLabel]
      congr 1
      have hl : ({ (st.nets self).label with
          visible := !(st.nets self).label.text.isEmpty &&
            !(!(st.nets self).label.text.isEmpty && !(st.nets self).label.visible) } : Label R)
          = (st.nets self).label := by
        cases hvis : (st.nets self).label.visible with
        | false =>
          cases hemp : (st.nets self).label.text.isEmpty with
          | false =>
            have e : (st.nets self).label = { (st.nets self).label with visible := false } := by
              rw [← hvis]
            rw [e]; simp
          | true =>
            have e : (st.nets self).label = { (st.nets self).label with visible := false } := by
              rw [← hvis]
            rw [e]; simp
        | true =>
          have hne := hv hvis
          rw [← ht] at hne
          have hemp : (st.nets self).label.text.isEmpty = false := by
            cases hn : (st.nets self).label.text with
            | nil => exact absurd hn hne
            | cons a as => rfl
          have e : (st.nets self).label = { (st.nets self).label with visible := true } := by
            rw [← hvis]
          rw [e]; simp [hemp]
      rw [hl]
      exact setLabel_self st self

theorem namedState_reachable : Reachable exampleExternals 0 namedState :=
  Reachable.set_name (freshState.construct exampleExternals 0) namedState ['X'] (Reachable.ctor freshState)
    (by
      rw [set_name_no_wires exampleExternals (freshState.construct exampleExternals 0) 0 ['X'] rfl rfl]
      rfl)

/-- Witness for C10: the state `namedState`, reached by the constructor and
`set_name("X")`. -/
theorem label_visibility_invariant_witness :
    (namedState.nets 0).label.text = (namedState.nets 0).m_name ∧
      ∃ st1, WireNet.toggleLabel exampleExternals namedState 0 = some st1 ∧
        WireNet.toggleLabel exampleExternals st1 0 = some namedState := by
  have h := label_visibility_invariant exampleExternals 0 namedState namedState_reachable
  obtain ⟨st1, h1, _, _, h2⟩ := h.2.2.2
  exact ⟨h.1, st1, h1, h2⟩

end QSchematic
